import Mathlib

set_option linter.unusedVariables false
set_option maxRecDepth 8000

/-!
Verification of the flight-search tool (scripts/flight_search.py): a shallow
embedding of its URL generators, the Amadeus API client (authentication and
offer parsing), the aggregator, the preset iteration and the result
formatter, together with proofs of the documented properties.
-/

/-- Exact decimal number: mantissa times ten to the minus scale. Models the
numeric values of this program (Python floats obtained by parsing decimal
literals, and JSON number literals). -/
structure Dec where
  mant : Int
  scale : Nat
deriving DecidableEq, Repr

/-- JSON-like Python value as produced by json.loads: None, bool, number,
str, list, dict (string-keyed, insertion ordered). -/
inductive JValue where
  | null : JValue
  | bool : Bool → JValue
  | num : Dec → JValue
  | str : String → JValue
  | arr : List JValue → JValue
  | obj : List (String × JValue) → JValue

/-- Python runtime errors relevant to the embedded code paths. -/
inductive PyErr where
  | attributeError
  | typeError
  | valueError
  | indexError
deriving DecidableEq, Repr

/-- Error taxonomy of the script itself: a date string rejected by strptime
(a ValueError in Python; the FormatError of the spec) or an unknown preset
name (a ValueError in Python; the UnknownPresetError of the spec). -/
inductive ScriptErr where
  | formatError
  | unknownPreset
deriving DecidableEq, Repr

/-- Python d.get(key, default), where the receiver must be a dict
(AttributeError otherwise). -/
def pyGetD : JValue → String → JValue → Except PyErr JValue
  | .obj fs, k, d => .ok ((fs.lookup k).getD d)
  | _, _, _ => .error .attributeError

/-- Python iteration over a value: lists yield their elements, dicts their
keys, strings their one-character substrings; other values are not iterable
(TypeError). -/
def pyIter : JValue → Except PyErr (List JValue)
  | .arr xs => .ok xs
  | .obj fs => .ok (fs.map (fun kv => .str kv.1))
  | .str s => .ok (s.toList.map (fun c => .str (String.mk [c])))
  | _ => .error .typeError

/-- Python truthiness of a JSON-like value. -/
def pyTruthy : JValue → Bool
  | .null => false
  | .bool b => b
  | .num d => d.mant != 0
  | .str s => !s.isEmpty
  | .arr xs => !xs.isEmpty
  | .obj fs => !fs.isEmpty

/-- Hashability: the scalar values are hashable, lists and dicts are not. -/
def hashableJ : JValue → Bool
  | .arr _ => false
  | .obj _ => false
  | _ => true

/-- Numeric view of a scalar (Python treats True as 1 and False as 0). -/
def numValQ : JValue → Option (Int × Nat)
  | .bool b => some (if b then 1 else 0, 0)
  | .num d => some (d.mant, d.scale)
  | _ => none

/-- Python equality between the scalar values that can enter the airlines
set (None, bool, number, str; numbers compare by value and True equals 1).
Containers never reach a set in this program, so they compare unequal
here. -/
def scalarEq (a b : JValue) : Bool :=
  match a, b with
  | .null, .null => true
  | .str s, .str t => s == t
  | _, _ =>
    match numValQ a, numValQ b with
    | some (m1, e1), some (m2, e2) => m1 * (10 : Int) ^ e2 == m2 * (10 : Int) ^ e1
    | _, _ => false

/-- Python set.add on the airlines set, represented as an insertion-ordered
duplicate-free list (the CPython iteration order of a set is not modelled,
only membership and deduplication). Unhashable values raise TypeError. -/
def setAdd (s : List JValue) (v : JValue) : Except PyErr (List JValue) :=
  if hashableJ v then .ok (if s.any (fun w => scalarEq w v) then s else s ++ [v])
  else .error .typeError

/-- Value of a list of decimal digit characters. -/
def digitsToNat (cs : List Char) : Nat := cs.foldl (fun a c => a * 10 + (c.toNat - 48)) 0

/-- Python float() restricted to plain signed decimal literals: optional
sign, digits, optional fractional part. Exponent forms, inf, nan,
underscores and surrounding whitespace are outside this model; no input in
this development uses them. -/
def parseDecLit (s : String) : Option Dec :=
  let signed : Bool × List Char :=
    match s.toList with
    | '-' :: t => (true, t)
    | '+' :: t => (false, t)
    | cs => (false, cs)
  let ip := signed.2.takeWhile Char.isDigit
  let rest := signed.2.dropWhile Char.isDigit
  let mk : List Char → Option Dec := fun fp =>
    if ip.isEmpty && fp.isEmpty then none
    else
      let m : Int := Int.ofNat (digitsToNat (ip ++ fp))
      some ⟨if signed.1 then -m else m, fp.length⟩
  match rest with
  | [] => mk []
  | '.' :: rest2 =>
    if (rest2.dropWhile Char.isDigit).isEmpty then mk (rest2.takeWhile Char.isDigit) else none
  | _ => none

/-- Python float(x) on the values that reach it in this program: numbers and
bools convert, decimal literal strings parse (ValueError otherwise), and
None, lists and dicts raise TypeError. -/
def pyFloat : JValue → Except PyErr Dec
  | .num d => .ok d
  | .bool b => .ok ⟨if b then 1 else 0, 0⟩
  | .str s =>
    match parseDecLit s with
    | some d => .ok d
    | none => .error .valueError
  | _ => .error .typeError

/-- Calendar date. -/
structure Date where
  year : Nat
  month : Nat
  day : Nat
deriving DecidableEq, Repr

def isLeap (y : Nat) : Bool := (y % 4 == 0 && y % 100 != 0) || (y % 400 == 0)

def daysInMonth (y m : Nat) : Nat :=
  if m == 2 then (if isLeap y then 29 else 28)
  else if m == 4 || m == 6 || m == 9 || m == 11 then 30
  else 31

/-- Split a character list at every dash (the groups do not contain the
separator). -/
def splitDash : List Char → List (List Char)
  | [] => [[]]
  | '-' :: rest => [] :: splitDash rest
  | c :: rest =>
    match splitDash rest with
    | [] => [[c]]
    | g :: gs => (c :: g) :: gs

/-- Value of a non-empty all-digit character group. -/
def decDigitsVal : List Char → Option Nat
  | [] => none
  | cs => if cs.all Char.isDigit then some (digitsToNat cs) else none

/-- datetime.strptime(s, "%Y-%m-%d") as used by the skyscanner generator: a
four-digit year, a one- or two-digit month and day, separated by dashes,
validated as a real calendar date (year at least 1, day within the month,
leap years handled); anything else raises ValueError. -/
def parseDate (s : String) : Option Date :=
  match splitDash s.toList with
  | [ys, ms, ds] =>
    if ys.length = 4 ∧ 1 ≤ ms.length ∧ ms.length ≤ 2 ∧ 1 ≤ ds.length ∧ ds.length ≤ 2 then
      match decDigitsVal ys, decDigitsVal ms, decDigitsVal ds with
      | some y, some m, some d =>
        if 1 ≤ y ∧ 1 ≤ m ∧ m ≤ 12 ∧ 1 ≤ d ∧ d ≤ daysInMonth y m then some ⟨y, m, d⟩ else none
      | _, _, _ => none
    else none
  | _ => none

/-- Two-digit zero padding, for values below 100. -/
def pad2 (n : Nat) : String := if n < 10 then "0" ++ toString n else toString n

/-- strftime("%y%m%d"): two-digit year, month and day, zero padded. -/
def fmtYYMMDD (d : Date) : String := pad2 (d.year % 100) ++ pad2 d.month ++ pad2 d.day

/-- Decimal digit character. -/
def digitChar (d : Nat) : Char := Char.ofNat (48 + d)

/-- Uppercase hexadecimal digit character. -/
def hexUpChar (d : Nat) : Char := if d < 10 then digitChar d else Char.ofNat (55 + d)

/-- UTF-8 encoding of one character, as the list of its byte values. -/
def utf8Bytes (c : Char) : List Nat :=
  let n := c.toNat
  if n < 0x80 then [n]
  else if n < 0x800 then [0xC0 + n / 0x40, 0x80 + n % 0x40]
  else if n < 0x10000 then [0xE0 + n / 0x1000, 0x80 + n / 0x40 % 0x40, 0x80 + n % 0x40]
  else [0xF0 + n / 0x40000, 0x80 + n / 0x1000 % 0x40, 0x80 + n / 0x40 % 0x40, 0x80 + n % 0x40]

/-- urllib.parse.quote_plus: ASCII letters, digits and underscore, dot,
dash, tilde pass through; a space becomes a plus; every other character is
percent-encoded byte-wise in UTF-8 with uppercase hex. -/
def quote_plus (s : String) : String :=
  String.mk (s.toList.flatMap (fun c =>
    if c.isAlphanum || c == '_' || c == '.' || c == '-' || c == '~' then [c]
    else if c == ' ' then ['+']
    else (utf8Bytes c).flatMap (fun b => ['%', hexUpChar (b / 16), hexUpChar (b % 16)])))

/-- urllib.parse.urlencode: ampersand-joined key=value pairs, both sides
quote_plus-encoded, in insertion order. -/
def urlencode : List (String × String) → String
  | [] => ""
  | [(k, v)] => quote_plus k ++ "=" ++ quote_plus v
  | (k, v) :: rest => quote_plus k ++ "=" ++ quote_plus v ++ "&" ++ urlencode rest

/-- generate_google_flights_url: query-parameter Google Flights URL (unused
by the aggregator); the passengers clause joins the query only above one
passenger. -/
def generate_google_flights_url (origin destination depart_date return_date : String)
    (passengers : Int) : String :=
  "https://www.google.com/travel/flights?" ++
    urlencode [("hl", "en"), ("curr", "USD"),
      ("q", "Flights from " ++ origin ++ " to " ++ destination ++ " on " ++ depart_date ++
        " through " ++ return_date ++
        (if 1 < passengers then " " ++ toString passengers ++ " passengers" else ""))]

/-- generate_google_flights_direct_url: the function builds a params list
(whose only passenger entry is added above one passenger) but discards it
and returns the simple query URL, which never encodes the passenger
count. The discarded pure list computation is omitted here since it cannot
fail and has no effect on the returned value. -/
def generate_google_flights_direct_url (origin destination depart_date return_date : String)
    (passengers : Int) : String :=
  "https://www.google.com/travel/flights?q=Flights+to+" ++ destination ++ "+from+" ++ origin ++
    "+on+" ++ depart_date ++ "+through+" ++ return_date

/-- generate_kayak_url: path-style URL; the passengers segment is the empty
string unless passengers exceeds one. -/
def generate_kayak_url (origin destination depart_date return_date : String)
    (passengers : Int) : String :=
  "https://www.kayak.com/flights/" ++ origin ++ "-" ++ destination ++ "/" ++ depart_date ++
    "/" ++ return_date ++ "/" ++ (if 1 < passengers then toString passengers ++ "adults" else "")

/-- ASCII lowercasing, as str.lower() acts on airport codes (the full
unicode lowering of Python is not needed for this program's inputs). -/
def strLower (s : String) : String := String.mk (s.toList.map Char.toLower)

/-- generate_skyscanner_url: reformats both dates through
strptime("%Y-%m-%d") and strftime("%y%m%d") — the only generator that
parses its date inputs, and its only failure path — lower-cases the airport
codes and appends a literal letter e after the destination (as the source
f-string does). The passengers argument is unused, as in the source. -/
def generate_skyscanner_url (origin destination depart_date return_date : String)
    (passengers : Int) : Except ScriptErr String :=
  match parseDate depart_date with
  | none => .error .formatError
  | some d =>
    match parseDate return_date with
    | none => .error .formatError
    | some r =>
      .ok ("https://www.skyscanner.com/transport/flights/" ++ strLower origin ++ "/" ++
        strLower destination ++ "e/" ++ fmtYYMMDD d ++ "/" ++ fmtYYMMDD r ++ "/")

/-- generate_southwest_url: fixed parameter dictionary in insertion order;
the adult passenger count is always included, whatever its value. -/
def generate_southwest_url (origin destination depart_date return_date : String)
    (passengers : Int) : String :=
  "https://www.southwest.com/air/booking/select.html?" ++
    urlencode [("originationAirportCode", origin),
      ("destinationAirportCode", destination),
      ("returnAirportCode", ""),
      ("departureDate", depart_date),
      ("departureTimeOfDay", "ALL_DAY"),
      ("returnDate", return_date),
      ("returnTimeOfDay", "ALL_DAY"),
      ("adultPassengersCount", toString passengers),
      ("seniorPassengersCount", "0"),
      ("tripType", "roundtrip"),
      ("fareType", "USD"),
      ("passengerType", "ADULT"),
      ("reset", "true"),
      ("int", "HOMEQBOMAIR")]

/-- generate_chase_ur_url: constant points-portal URL. -/
def generate_chase_ur_url : String := "https://ultimaterewardspoints.chase.com/travel"

/-- generate_citi_ty_url: constant points-portal URL. -/
def generate_citi_ty_url : String := "https://www.thankyou.com/cms/thankyou/travel.page"

/-- One parsed flight segment, as built by AmadeusAPI._parse_offers: every
field is the raw looked-up value, defaulting to None when a key is
missing. -/
structure SegInfo where
  departure : JValue
  arrival : JValue
  departure_time : JValue
  arrival_time : JValue
  carrier : JValue
  flight_number : JValue
  duration : JValue

/-- One parsed offer, as built by AmadeusAPI._parse_offers: price from
float() of the price total (defaulting to 0 when absent), currency
defaulting to "USD", the flat segment list across itineraries, and the
deduplicated carrier codes. -/
structure POffer where
  price : Dec
  currency : JValue
  segments : List SegInfo
  airlines : List JValue

/-- Body of the inner segment loop of _parse_offers: the seg_info dict,
field by field in source order. Each lookup requires a dict receiver; the
departure and arrival sub-dicts are looked up twice, as in the source. -/
def parseSegment (segment : JValue) : Except PyErr SegInfo := do
  let dep ← pyGetD segment "departure" (.obj [])
  let depCode ← pyGetD dep "iataCode" .null
  let arrv ← pyGetD segment "arrival" (.obj [])
  let arrCode ← pyGetD arrv "iataCode" .null
  let dep2 ← pyGetD segment "departure" (.obj [])
  let depAt ← pyGetD dep2 "at" .null
  let arrv2 ← pyGetD segment "arrival" (.obj [])
  let arrAt ← pyGetD arrv2 "at" .null
  let carrier ← pyGetD segment "carrierCode" .null
  let fnum ← pyGetD segment "number" .null
  let dur ← pyGetD segment "duration" .null
  pure ⟨depCode, arrCode, depAt, arrAt, carrier, fnum, dur⟩

/-- Inner loop of _parse_offers over the segments of one itinerary:
append the seg_info, then add the carrier code to the airlines set. -/
def parseSegments (env0 : Unit) : List JValue → List SegInfo → List JValue →
    Except PyErr (List SegInfo × List JValue)
  | [], segs, air => .ok (segs, air)
  | s :: rest, segs, air => do
    let info ← parseSegment s
    let c ← pyGetD s "carrierCode" .null
    let air2 ← setAdd air c
    parseSegments env0 rest (segs ++ [info]) air2

/-- Outer loop of _parse_offers over the itineraries of one offer. -/
def parseItins (env0 : Unit) : List JValue → List SegInfo → List JValue →
    Except PyErr (List SegInfo × List JValue)
  | [], segs, air => .ok (segs, air)
  | it :: rest, segs, air => do
    let sv ← pyGetD it "segments" (.arr [])
    let sl ← pyIter sv
    let sa ← parseSegments env0 sl segs air
    parseItins env0 rest sa.1 sa.2

/-- One offer of _parse_offers: price (float of the price total, absent
price dict defaulting to an empty dict and absent total to 0), currency
(defaulting to "USD"), then the itineraries loop. -/
def parseOffer (offer : JValue) : Except PyErr POffer := do
  let pv ← pyGetD offer "price" (.obj [])
  let tot ← pyGetD pv "total" (.num ⟨0, 0⟩)
  let price ← pyFloat tot
  let pv2 ← pyGetD offer "price" (.obj [])
  let currency ← pyGetD pv2 "currency" (.str "USD")
  let iv ← pyGetD offer "itineraries" (.arr [])
  let il ← pyIter iv
  let sa ← parseItins () il [] []
  pure ⟨price, currency, sa.1, sa.2⟩

/-- Loop of _parse_offers over the response offers, appending each parsed
offer; an exception at any offer aborts the whole loop. -/
def parseOffersList : List JValue → List POffer → Except PyErr (List POffer)
  | [], acc => .ok acc
  | o :: rest, acc => do
    let p ← parseOffer o
    parseOffersList rest (acc ++ [p])

/-- AmadeusAPI._parse_offers: iterate response.get("data", []) and parse
each offer. Any exception raised by one offer propagates, discarding every
offer of the response. -/
def parse_offers (response : JValue) : Except PyErr (List POffer) := do
  let dv ← pyGetD response "data" (.arr [])
  let dl ← pyIter dv
  parseOffersList dl []

/-- Environment and remote behaviour visible to one AmadeusAPI client: the
two credential environment variables, and the outcome of the one token
request and the one search request the client can make. None stands for a
request that raises (network failure, non-2xx status, or a body that
json.loads rejects); some body is a decoded JSON response body. -/
structure ApiEnv where
  api_key : Option String
  api_secret : Option String
  auth_response : Option JValue
  search_response : Option JValue

/-- AmadeusAPI.is_configured: bool(key and secret) — both present and
non-empty (Python truthiness of strings). -/
def is_configured (env : ApiEnv) : Bool :=
  !(env.api_key.getD "").isEmpty && !(env.api_secret.getD "").isEmpty

/-- Outcome of AmadeusAPI.authenticate on a fresh client: None when not
configured, when the token request raises, when the body is not a dict
(the .get raises AttributeError, caught and turned into False), or when the
access_token field is missing or falsy; otherwise the token value. -/
def amadeus_token (env : ApiEnv) : Option JValue :=
  if is_configured env then
    match env.auth_response with
    | none => none
    | some body =>
      match body with
      | .obj fs =>
        let tok := (fs.lookup "access_token").getD .null
        if pyTruthy tok then some tok else none
      | _ => none
  else none

/-- Outcome of AmadeusAPI.search_flights on a fresh client: None when
authentication fails, when the search request raises, or when parsing the
response body raises (the method catches every exception and returns
None); otherwise the parsed offers. -/
def amadeus_search_flights (env : ApiEnv) : Option (List POffer) :=
  match amadeus_token env with
  | none => none
  | some _ =>
    match env.search_response with
    | none => none
    | some body =>
      match parse_offers body with
      | .ok offers => some offers
      | .error _ => none

/-- The search_params sub-dict of a result. -/
structure SearchParams where
  origin : String
  destination : String
  depart_date : String
  return_date : String
  passengers : Int
deriving DecidableEq, Repr

/-- The result dict built by search_flights: search parameters, optional
API offers, the comparison URLs and points-portal URLs in insertion order,
the timestamp, and the trip_name key added only by the preset loop. -/
structure SearchResult where
  search_params : SearchParams
  api_results : Option (List POffer)
  urls : List (String × String)
  points_urls : List (String × String)
  timestamp : String
  trip_name : Option String

/-- search_flights (the aggregator): the result starts with api_results
None; when use_api is set and the client is configured the Amadeus lookup
runs and its outcome (None on any failure) is stored; the URL dict is then
always generated — only the skyscanner generator can raise, and its
ValueError propagates out, as in the source. The timestamp is the
datetime.now() string, passed in as now. Diagnostic prints to stderr are
not modelled. -/
def search_flights (env : ApiEnv) (now : String)
    (origin destination depart_date return_date : String)
    (passengers : Int) (use_api : Bool) : Except ScriptErr SearchResult :=
  let api_results : Option (List POffer) :=
    if use_api then (if is_configured env then amadeus_search_flights env else none) else none
  let gf := generate_google_flights_direct_url origin destination depart_date return_date passengers
  let ky := generate_kayak_url origin destination depart_date return_date passengers
  match generate_skyscanner_url origin destination depart_date return_date passengers with
  | .error e => .error e
  | .ok sk =>
    let sw := generate_southwest_url origin destination depart_date return_date passengers
    .ok { search_params := { origin := origin, destination := destination
                           , depart_date := depart_date, return_date := return_date
                           , passengers := passengers }
        , api_results := api_results
        , urls := [("google_flights", gf), ("kayak", ky), ("skyscanner", sk), ("southwest", sw)]
        , points_urls := [("chase_ultimate_rewards", generate_chase_ur_url),
            ("citi_thankyou", generate_citi_ty_url)]
        , timestamp := now
        , trip_name := none }

/-- The skyscanner URL for dates that parse (helper for stating results of
successful searches; the default date is never reached under the parsing
hypotheses of the theorems that use it). -/
def sky_ok (origin destination depart_date return_date : String) : String :=
  "https://www.skyscanner.com/transport/flights/" ++ strLower origin ++ "/" ++
    strLower destination ++ "e/" ++ fmtYYMMDD ((parseDate depart_date).getD ⟨1900, 1, 1⟩) ++
    "/" ++ fmtYYMMDD ((parseDate return_date).getD ⟨1900, 1, 1⟩) ++ "/"

/-- The result search_flights returns when both dates parse. -/
def searchResultOk (env : ApiEnv) (now : String)
    (origin destination depart_date return_date : String)
    (passengers : Int) (use_api : Bool) : SearchResult :=
  { search_params := { origin := origin, destination := destination
                     , depart_date := depart_date, return_date := return_date
                     , passengers := passengers }
  , api_results :=
      if use_api then (if is_configured env then amadeus_search_flights env else none) else none
  , urls := [("google_flights",
        generate_google_flights_direct_url origin destination depart_date return_date passengers),
      ("kayak", generate_kayak_url origin destination depart_date return_date passengers),
      ("skyscanner", sky_ok origin destination depart_date return_date),
      ("southwest", generate_southwest_url origin destination depart_date return_date passengers)]
  , points_urls := [("chase_ultimate_rewards", generate_chase_ur_url),
      ("citi_thankyou", generate_citi_ty_url)]
  , timestamp := now
  , trip_name := none }

/-- One preset configuration entry. -/
structure Preset where
  origin : String
  destination : String
  outbound_dates : List String
  return_dates : List String
  passengers : Int
  description : String

/-- The colorado_trip preset. -/
def coloradoPreset : Preset :=
  { origin := "PHL"
  , destination := "DEN"
  , outbound_dates := ["2026-01-23", "2026-01-24"]
  , return_dates := ["2026-01-26", "2026-01-27", "2026-01-28", "2026-01-29"]
  , passengers := 2
  , description := "Colorado snowboarding trip - Jan 2026" }

/-- The preset registry (one entry). -/
def PRESETS : List (String × Preset) := [("colorado_trip", coloradoPreset)]

/-- Inner loop of search_date_combinations over the return dates of one
departure date: each search result is tagged with the preset name and
appended; an exception from search_flights propagates. search_flights is
called without use_api, whose default is True. -/
def innerLoop (env : ApiEnv) (now : String) (preset : Preset) (name : String) (d : String) :
    List String → List SearchResult → Except ScriptErr (List SearchResult)
  | [], acc => .ok acc
  | r :: rs, acc =>
    match search_flights env now preset.origin preset.destination d r preset.passengers true with
    | .error e => .error e
    | .ok res => innerLoop env now preset name d rs (acc ++ [{ res with trip_name := some name }])

/-- Outer loop of search_date_combinations over the departure dates. -/
def outerLoop (env : ApiEnv) (now : String) (preset : Preset) (name : String) :
    List String → List SearchResult → Except ScriptErr (List SearchResult)
  | [], acc => .ok acc
  | d :: ds, acc =>
    match innerLoop env now preset name d preset.return_dates acc with
    | .error e => .error e
    | .ok acc2 => outerLoop env now preset name ds acc2

/-- search_date_combinations: an unregistered preset name raises ValueError
before any search; otherwise the cartesian product of outbound and return
dates is searched departure-date-major. -/
def search_date_combinations (env : ApiEnv) (now : String) (preset_name : String) :
    Except ScriptErr (List SearchResult) :=
  match PRESETS.lookup preset_name with
  | none => .error .unknownPreset
  | some preset => outerLoop env now preset preset_name preset.outbound_dates []

/-- Digits of a positive natural, most significant first (accumulator
form). -/
def natDigitsGo : Nat → List Char → List Char
  | 0, acc => acc
  | n + 1, acc => natDigitsGo ((n + 1) / 10) (digitChar ((n + 1) % 10) :: acc)
decreasing_by exact Nat.div_lt_self (Nat.succ_pos n) (by omega)

/-- Decimal digits of a natural number. -/
def natDigits (n : Nat) : List Char := if n = 0 then ['0'] else natDigitsGo n []

/-- Rendering of an unsigned decimal value with exactly e fractional
digits (zero-padded on the left so the integer part is non-empty). -/
def renderDecBody (n : Nat) (e : Nat) : List Char :=
  let ds := natDigits n
  if e = 0 then ds
  else
    let padded := List.replicate (e + 1 - ds.length) '0' ++ ds
    padded.take (padded.length - e) ++ '.' :: padded.drop (padded.length - e)

/-- Rendering of a number value, as a plain signed decimal literal with
exactly scale fractional digits. This models the repr Python uses when
json.dumps serializes the float and int values arising in this program. -/
def renderDec (d : Dec) : List Char :=
  (if d.mant < 0 then ['-'] else []) ++ renderDecBody d.mant.natAbs d.scale

/-- Lowercase hexadecimal digit character, as the %04x of json.dumps. -/
def hexLoChar (d : Nat) : Char := if d < 10 then digitChar d else Char.ofNat (87 + d)

/-- Four lowercase hex digits of a value below 65536. -/
def hex4 (n : Nat) : List Char :=
  [hexLoChar (n / 4096 % 16), hexLoChar (n / 256 % 16), hexLoChar (n / 16 % 16), hexLoChar (n % 16)]

/-- Escape of one character under json.dumps with its default ensure_ascii:
quote and backslash get short escapes, as do backspace, tab, newline, form
feed and carriage return; the other control characters and every
non-ASCII character escape as backslash-u hex (with a surrogate pair above
the basic plane); printable ASCII passes through. -/
def escapeChar (c : Char) : List Char :=
  if c = '"' then ['\\', '"']
  else if c = '\\' then ['\\', '\\']
  else if c = Char.ofNat 8 then ['\\', 'b']
  else if c = '\t' then ['\\', 't']
  else if c = '\n' then ['\\', 'n']
  else if c = Char.ofNat 12 then ['\\', 'f']
  else if c = '\r' then ['\\', 'r']
  else if c.toNat < 0x20 then '\\' :: 'u' :: hex4 c.toNat
  else if c.toNat < 0x7f then [c]
  else if c.toNat < 0x10000 then '\\' :: 'u' :: hex4 c.toNat
  else
    '\\' :: 'u' :: hex4 (0xd800 + (c.toNat - 0x10000) / 0x400) ++
      '\\' :: 'u' :: hex4 (0xdc00 + (c.toNat - 0x10000) % 0x400)

/-- Escaped body of a JSON string literal. -/
def renderStrChars (cs : List Char) : List Char := cs.flatMap escapeChar

/-- A JSON string literal including its quotes. -/
def renderStr (s : String) : List Char := '"' :: (renderStrChars s.toList ++ ['"'])

/-- Newline plus the two-space-per-level indentation of
json.dumps(..., indent=2). -/
def nlIndent (lvl : Nat) : List Char := '\n' :: List.replicate (2 * lvl) ' '

mutual

/-- json.dumps(v, indent=2) at an indentation level: non-empty containers
open with a newline-indent, separate items with a comma newline-indent, and
close with a newline at the enclosing level; empty containers render
flat; object members use a colon-space separator. -/
def renderJ : Nat → JValue → List Char
  | _, .null => ['n', 'u', 'l', 'l']
  | _, .bool true => ['t', 'r', 'u', 'e']
  | _, .bool false => ['f', 'a', 'l', 's', 'e']
  | _, .num d => renderDec d
  | _, .str s => renderStr s
  | _, .arr [] => ['[', ']']
  | lvl, .arr (x :: xs) =>
    '[' :: (nlIndent (lvl + 1) ++ renderJ (lvl + 1) x ++ renderItems (lvl + 1) xs ++
      nlIndent lvl ++ [']'])
  | _, .obj [] => ['{', '}']
  | lvl, .obj ((k, v) :: kvs) =>
    '{' :: (nlIndent (lvl + 1) ++ renderStr k ++ ':' :: ' ' :: renderJ (lvl + 1) v ++
      renderMembers (lvl + 1) kvs ++ nlIndent lvl ++ ['}'])

/-- Remaining array items, each preceded by a comma and newline-indent. -/
def renderItems : Nat → List JValue → List Char
  | _, [] => []
  | lvl, x :: xs => ',' :: (nlIndent lvl ++ renderJ lvl x ++ renderItems lvl xs)

/-- Remaining object members, each preceded by a comma and newline-indent. -/
def renderMembers : Nat → List (String × JValue) → List Char
  | _, [] => []
  | lvl, (k, v) :: kvs =>
    ',' :: (nlIndent lvl ++ renderStr k ++ ':' :: ' ' :: renderJ lvl v ++ renderMembers lvl kvs)

end

/-- json.dumps(v, indent=2) as a string. -/
def renderJson (v : JValue) : String := String.mk (renderJ 0 v)

/-- JSON form of one seg_info dict. -/
def segToJson (s : SegInfo) : JValue :=
  .obj [("departure", s.departure), ("arrival", s.arrival),
    ("departure_time", s.departure_time), ("arrival_time", s.arrival_time),
    ("carrier", s.carrier), ("flight_number", s.flight_number), ("duration", s.duration)]

/-- JSON form of one parsed offer dict. -/
def offerToJson (o : POffer) : JValue :=
  .obj [("price", .num o.price), ("currency", o.currency),
    ("segments", .arr (o.segments.map segToJson)), ("airlines", .arr o.airlines)]

/-- JSON form of the search_params sub-dict. -/
def paramsJ (p : SearchParams) : JValue :=
  .obj [("origin", .str p.origin), ("destination", .str p.destination),
    ("depart_date", .str p.depart_date), ("return_date", .str p.return_date),
    ("passengers", .num ⟨p.passengers, 0⟩)]

/-- JSON form of a URL mapping. -/
def urlsJ (m : List (String × String)) : JValue := .obj (m.map (fun kv => (kv.1, .str kv.2)))

/-- JSON form of one result dict, keys in insertion order; the trip_name
key exists only when the preset loop added it. -/
def toJson (r : SearchResult) : JValue :=
  .obj ([("search_params", paramsJ r.search_params),
    ("api_results", match r.api_results with
      | none => .null
      | some os => .arr (os.map offerToJson)),
    ("urls", urlsJ r.urls),
    ("points_urls", urlsJ r.points_urls),
    ("timestamp", .str r.timestamp)] ++
    (match r.trip_name with
      | none => []
      | some t => [("trip_name", .str t)]))

/-- The 70-equals-signs banner line. -/
def eqBar : String := String.mk (List.replicate 70 '=')

/-- The 50-dashes separator line. -/
def dashBar : String := String.mk (List.replicate 50 '-')

/-- Join strings with a separator (sep.join). -/
def strIntercalate (sep : String) : List String → String
  | [] => ""
  | [x] => x
  | x :: xs => x ++ sep ++ strIntercalate sep xs

/-- name.replace(an underscore, a space): the pattern is a single
character, so a character map suffices. -/
def underscoreToSpace (s : String) : String :=
  String.mk (s.toList.map (fun c => if c = '_' then ' ' else c))

/-- str.title() word-wise casing (ASCII model: the first letter of each
letter run is uppercased, the rest lowercased). -/
def titleGo : Bool → List Char → List Char
  | _, [] => []
  | startWord, c :: cs =>
    if c.isAlpha then (if startWord then c.toUpper else c.toLower) :: titleGo false cs
    else c :: titleGo true cs

/-- str.title() on a site or portal name. -/
def pyTitle (s : String) : String := String.mk (titleGo true s.toList)

/-- Display label of a mapping key: replace underscores with spaces, then
title-case. -/
def displayName (name : String) : String := pyTitle (underscoreToSpace name)

/-- str elements of a list, TypeError on any non-str element (as
", ".join raises). -/
def strList : List JValue → Except PyErr (List String)
  | [] => .ok []
  | .str s :: rest => do
    let t ← strList rest
    .ok (s :: t)
  | _ => .error .typeError

/-- Python sep.join over a list of values, which must all be str. -/
def pyJoin (sep : String) (xs : List JValue) : Except PyErr String := do
  let t ← strList xs
  .ok (strIntercalate sep t)

/-- Round num / den (den positive) to the nearest integer, ties to even. -/
def roundHalfEven (num : Int) (den : Nat) : Int :=
  let q := num / (den : Int)
  let r := num % (den : Int)
  if 2 * r < (den : Int) then q
  else if (den : Int) < 2 * r then q + 1
  else if q % 2 = 0 then q else q + 1

/-- The .2f format specifier on a number: two fractional digits, rounding
ties to even. This models the Python float formatting on the exact decimal
value; the binary double rounding of CPython is outside the model (no
theorem below evaluates it). -/
def fmt2f (d : Dec) : String :=
  let m2 : Int :=
    if d.scale ≤ 2 then d.mant * (10 : Int) ^ (2 - d.scale)
    else roundHalfEven d.mant ((10 : Nat) ^ (d.scale - 2))
  (if m2 < 0 then "-" else "") ++ toString (m2.natAbs / 100) ++ "." ++ pad2 (m2.natAbs % 100)

/-- The enumerated offer lines of the text report (i starts at 1); the
airline join raises TypeError on a non-str carrier code. -/
def offerLines (i : Nat) : List POffer → Except PyErr (List String)
  | [] => .ok []
  | o :: rest => do
    let airlines ← pyJoin ", " o.airlines
    let t ← offerLines (i + 1) rest
    .ok (("  " ++ toString i ++ ". $" ++ fmt2f o.price ++ " - " ++ airlines) :: t)

/-- The per-result block of the text report: route, dates, passengers,
separator, the API section (offers only when api_results is truthy, that
is, present and non-empty), then the search URLs. -/
def formatOne (r : SearchResult) : Except PyErr (List String) := do
  let p := r.search_params
  let apiLines ← match r.api_results with
    | some (o :: os) => do
      let ls ← offerLines 1 ((o :: os).take 5)
      pure ("API RESULTS (prices in USD):" :: ls)
    | _ => pure ["API: Not available (check URLs below)"]
  .ok (["",
    "Route: " ++ p.origin ++ " → " ++ p.destination,
    "Dates: " ++ p.depart_date ++ " to " ++ p.return_date,
    "Passengers: " ++ toString p.passengers,
    dashBar] ++ apiLines ++
    ["", "SEARCH URLS (click to compare prices):"] ++
    r.urls.map (fun kv => "  • " ++ displayName kv.1 ++ ": " ++ kv.2) ++ [""])

/-- The text-report loop over all results. -/
def formatLoop : List SearchResult → Except PyErr (List String)
  | [] => .ok []
  | r :: rest => do
    let a ← formatOne r
    let b ← formatLoop rest
    .ok (a ++ b)

/-- format_results: the json format is json.dumps(results, indent=2); any
other format string produces the text report, whose points-portal section
unconditionally indexes results[0] (IndexError on an empty result list). -/
def format_results (results : List SearchResult) (output_format : String) :
    Except PyErr String :=
  if output_format == "json" then .ok (renderJson (.arr (results.map toJson)))
  else do
    let body ← formatLoop results
    let pts ← match results with
      | [] => Except.error PyErr.indexError
      | r0 :: _ =>
        pure (r0.points_urls.map (fun kv => "  • " ++ displayName kv.1 ++ ": " ++ kv.2))
    .ok (strIntercalate "\n" ([eqBar, "FLIGHT SEARCH RESULTS", eqBar] ++ body ++
      [eqBar, "POINTS PORTALS:"] ++ pts ++
      ["", "NOTE: Points redemption values vary. Check portals for current rates:",
       "  - Chase UR: Often 1.25-1.5 cents/point via portal",
       "  - Citi TY: Often 1-1.25 cents/point via portal",
       "  - Transfer partners may offer better value"]))

/-- JSON whitespace. -/
def isWsChar (c : Char) : Bool := c == ' ' || c == '\t' || c == '\n' || c == '\r'

/-- Drop leading JSON whitespace. -/
def skipWs (cs : List Char) : List Char := cs.dropWhile isWsChar

/-- Value of one hexadecimal digit character. -/
def hexVal (c : Char) : Option Nat :=
  if '0' ≤ c ∧ c ≤ '9' then some (c.toNat - 48)
  else if 'a' ≤ c ∧ c ≤ 'f' then some (c.toNat - 87)
  else if 'A' ≤ c ∧ c ≤ 'F' then some (c.toNat - 55)
  else none

/-- Value of four hexadecimal digit characters. -/
def hex4Val (a b c d : Char) : Option Nat := do
  let x ← hexVal a
  let y ← hexVal b
  let z ← hexVal c
  let w ← hexVal d
  pure (4096 * x + 256 * y + 16 * z + w)

/-- One escape sequence after a backslash, as json.loads decodes it; a
backslash-u high surrogate must be followed by a low one and the pair
combines (json.loads additionally tolerates lone surrogates, which a Lean
character cannot hold; no well-formed encoder output contains them). -/
def parseEsc : List Char → Option (Char × List Char)
  | '"' :: r => some ('"', r)
  | '\\' :: r => some ('\\', r)
  | '/' :: r => some ('/', r)
  | 'b' :: r => some (Char.ofNat 8, r)
  | 'f' :: r => some (Char.ofNat 12, r)
  | 'n' :: r => some ('\n', r)
  | 'r' :: r => some (Char.ofNat 13, r)
  | 't' :: r => some ('\t', r)
  | 'u' :: a :: b :: c :: d :: r =>
    match hex4Val a b c d with
    | none => none
    | some n =>
      if 0xd800 ≤ n ∧ n < 0xdc00 then
        match r with
        | '\\' :: 'u' :: a2 :: b2 :: c2 :: d2 :: r2 =>
          match hex4Val a2 b2 c2 d2 with
          | none => none
          | some m =>
            if 0xdc00 ≤ m ∧ m < 0xe000 then
              some (Char.ofNat (0x10000 + (n - 0xd800) * 0x400 + (m - 0xdc00)), r2)
            else none
        | _ => none
      else if 0xdc00 ≤ n ∧ n < 0xe000 then none
      else some (Char.ofNat n, r)
  | _ => none

/-- JSON string body scanner after the opening quote, accumulating decoded
characters until the closing quote. -/
def parseStrGo : Nat → List Char → List Char → Option (String × List Char)
  | 0, _, _ => none
  | _ + 1, [], _ => none
  | fuel + 1, '"' :: rest, acc => some (String.mk acc.reverse, rest)
  | fuel + 1, '\\' :: rest, acc =>
    match parseEsc rest with
    | some (c, rest2) => parseStrGo fuel rest2 (c :: acc)
    | none => none
  | fuel + 1, c :: rest, acc => parseStrGo fuel rest (c :: acc)

/-- Apply a base-ten exponent to a decimal value. -/
def applyExp (m : Int) (e : Nat) (k : Int) : Dec :=
  if k ≤ 0 then ⟨m, e + k.natAbs⟩
  else if k.natAbs ≤ e then ⟨m, e - k.natAbs⟩
  else ⟨m * (10 : Int) ^ (k.natAbs - e), 0⟩

/-- Exponent tail of a JSON number, after the e. -/
def parseExpTail (m : Int) (e : Nat) (cs : List Char) : Option (Dec × List Char) :=
  let sgn : Bool × List Char :=
    match cs with
    | '-' :: t => (true, t)
    | '+' :: t => (false, t)
    | t => (false, t)
  let ds := sgn.2.takeWhile Char.isDigit
  if ds.isEmpty then none
  else
    let k : Int := if sgn.1 then -(Int.ofNat (digitsToNat ds)) else Int.ofNat (digitsToNat ds)
    some (applyExp m e k, sgn.2.dropWhile Char.isDigit)

/-- Finish a number literal: an optional exponent part, else the value as
parsed so far. -/
def finishNum (m : Int) (e : Nat) : List Char → Option (Dec × List Char)
  | c :: t =>
    if c = 'e' ∨ c = 'E' then parseExpTail m e t
    else some (⟨m, e⟩, c :: t)
  | [] => some (⟨m, e⟩, [])

/-- An unsigned JSON number literal: integer digits, optional fractional
digits, optional exponent (the strict no-leading-zero rule of json.loads is
not enforced; the encoder never emits leading zeros). -/
def parseNumBody (cs : List Char) : Option (Dec × List Char) :=
  let ip := cs.takeWhile Char.isDigit
  if ip.isEmpty then none
  else
    match cs.dropWhile Char.isDigit with
    | '.' :: t =>
      let fp := t.takeWhile Char.isDigit
      if fp.isEmpty then none
      else finishNum (Int.ofNat (digitsToNat (ip ++ fp))) fp.length (t.dropWhile Char.isDigit)
    | cs2 => finishNum (Int.ofNat (digitsToNat ip)) 0 cs2

/-- A JSON number literal: an optional leading minus applied to an unsigned
literal. -/
def parseNum (cs : List Char) : Option (Dec × List Char) :=
  match cs with
  | '-' :: t => (parseNumBody t).map (fun p => (⟨-p.1.mant, p.1.scale⟩, p.2))
  | _ => parseNumBody cs

mutual

/-- One JSON value, dispatching on the first non-whitespace character as
the json.loads scanner does. The fuel decreases on every recursive call;
the top entry point supplies more than enough of it. -/
def parseVal : Nat → List Char → Option (JValue × List Char)
  | 0, _ => none
  | fuel + 1, cs =>
    match skipWs cs with
    | [] => none
    | c :: rest =>
      if c = 'n' then
        match rest with
        | 'u' :: 'l' :: 'l' :: r => some (.null, r)
        | _ => none
      else if c = 't' then
        match rest with
        | 'r' :: 'u' :: 'e' :: r => some (.bool true, r)
        | _ => none
      else if c = 'f' then
        match rest with
        | 'a' :: 'l' :: 's' :: 'e' :: r => some (.bool false, r)
        | _ => none
      else if c = '"' then
        match parseStrGo fuel rest [] with
        | some (s, rest2) => some (.str s, rest2)
        | none => none
      else if c = '[' then
        match skipWs rest with
        | ']' :: rest2 => some (.arr [], rest2)
        | _ => parseItems fuel rest []
      else if c = '{' then
        match skipWs rest with
        | '}' :: rest2 => some (.obj [], rest2)
        | _ => parseMembers fuel rest []
      else
        match parseNum (c :: rest) with
        | some (d, r) => some (.num d, r)
        | none => none

/-- Comma-separated array items up to the closing bracket. -/
def parseItems : Nat → List Char → List JValue → Option (JValue × List Char)
  | 0, _, _ => none
  | fuel + 1, cs, acc =>
    match parseVal fuel cs with
    | none => none
    | some (v, rest) =>
      match skipWs rest with
      | ',' :: rest2 => parseItems fuel rest2 (acc ++ [v])
      | ']' :: rest2 => some (.arr (acc ++ [v]), rest2)
      | _ => none

/-- Comma-separated object members up to the closing brace. -/
def parseMembers : Nat → List Char → List (String × JValue) → Option (JValue × List Char)
  | 0, _, _ => none
  | fuel + 1, cs, acc =>
    match skipWs cs with
    | '"' :: rest =>
      match parseStrGo fuel rest [] with
      | none => none
      | some (k, rest2) =>
        match skipWs rest2 with
        | ':' :: rest3 =>
          match parseVal fuel rest3 with
          | none => none
          | some (v, rest4) =>
            match skipWs rest4 with
            | ',' :: rest5 => parseMembers fuel rest5 (acc ++ [(k, v)])
            | '}' :: rest5 => some (.obj (acc ++ [(k, v)]), rest5)
            | _ => none
        | _ => none
    | _ => none

end

/-- json.loads: parse one value and require only whitespace after it. -/
def parseJson (s : String) : Option JValue :=
  match parseVal (2 * s.length + 2) s.toList with
  | some (v, rest) => if (skipWs rest).isEmpty then some v else none
  | none => none

/-- Field lookup on a parsed JSON object. -/
def jsonField (v : JValue) (k : String) : Option JValue :=
  match v with
  | .obj fs => fs.lookup k
  | _ => none

/-- Dict lookup with default, on the field list of a dict. -/
def lookupD (fs : List (String × JValue)) (k : String) (d : JValue) : JValue :=
  (fs.lookup k).getD d

/-- A value float() accepts: a number, a bool, or a string that parses as a
decimal literal. -/
def floatableJ : JValue → Bool
  | .num _ => true
  | .bool _ => true
  | .str s => (parseDecLit s).isSome
  | _ => false

/-- Is the value a dict. -/
def isObjB : JValue → Bool
  | .obj _ => true
  | _ => false

/-- Is the value a list. -/
def isArrB : JValue → Bool
  | .arr _ => true
  | _ => false

/-- The elements of a list value (empty for non-lists). -/
def arrElems : JValue → List JValue
  | .arr xs => xs
  | _ => []

/-- Field of a dict value with a default (the default for non-dicts; the
well-formedness predicates below only apply it to dicts). -/
def getFieldD : JValue → String → JValue → JValue
  | .obj fs, k, d => lookupD fs k d
  | _, _, d => d

/-- A segment dict whose present fields have the shapes _parse_offers
dereferences without raising: departure and arrival (when present) are
dicts, and the carrier code (when present) is hashable. -/
def segWF (s : JValue) : Bool :=
  isObjB s && isObjB (getFieldD s "departure" (.obj [])) &&
    isObjB (getFieldD s "arrival" (.obj [])) && hashableJ (getFieldD s "carrierCode" .null)

/-- An itinerary dict whose segments entry (when present) is a list of
well-shaped segments. -/
def itinWF (it : JValue) : Bool :=
  isObjB it && isArrB (getFieldD it "segments" (.arr [])) &&
    (arrElems (getFieldD it "segments" (.arr []))).all segWF

/-- An offer dict whose present fields have the shapes _parse_offers
dereferences without raising: price (when present) is a dict whose total
(when present) float() accepts, and itineraries (when present) is a list of
well-shaped itinerary dicts. Fields may be missing at every level. -/
def offerWF (o : JValue) : Bool :=
  isObjB o && isObjB (getFieldD o "price" (.obj [])) &&
    floatableJ (getFieldD (getFieldD o "price" (.obj [])) "total" (.num ⟨0, 0⟩)) &&
    isArrB (getFieldD o "itineraries" (.arr [])) &&
    (arrElems (getFieldD o "itineraries" (.arr []))).all itinWF

/-- The kayak URL up to and excluding the passengers segment. -/
def kayakBase (origin destination depart_date return_date : String) : String :=
  "https://www.kayak.com/flights/" ++ origin ++ "-" ++ destination ++ "/" ++ depart_date ++
    "/" ++ return_date ++ "/"

/-- The southwest URL up to and including the adultPassengersCount key and
its equals sign — everything before the passenger count value. -/
def swPre (origin destination depart_date return_date : String) : String :=
  "https://www.southwest.com/air/booking/select.html?" ++
  quote_plus "originationAirportCode" ++ "=" ++ quote_plus origin ++ "&" ++
  quote_plus "destinationAirportCode" ++ "=" ++ quote_plus destination ++ "&" ++
  quote_plus "returnAirportCode" ++ "=" ++ quote_plus "" ++ "&" ++
  quote_plus "departureDate" ++ "=" ++ quote_plus depart_date ++ "&" ++
  quote_plus "departureTimeOfDay" ++ "=" ++ quote_plus "ALL_DAY" ++ "&" ++
  quote_plus "returnDate" ++ "=" ++ quote_plus return_date ++ "&" ++
  quote_plus "returnTimeOfDay" ++ "=" ++ quote_plus "ALL_DAY" ++ "&" ++
  quote_plus "adultPassengersCount" ++ "="

/-- The southwest URL after the adult passenger count value. -/
def swSuf : String :=
  "&" ++ quote_plus "seniorPassengersCount" ++ "=" ++ quote_plus "0" ++ "&" ++
  quote_plus "tripType" ++ "=" ++ quote_plus "roundtrip" ++ "&" ++
  quote_plus "fareType" ++ "=" ++ quote_plus "USD" ++ "&" ++
  quote_plus "passengerType" ++ "=" ++ quote_plus "ADULT" ++ "&" ++
  quote_plus "reset" ++ "=" ++ quote_plus "true" ++ "&" ++
  quote_plus "int" ++ "=" ++ quote_plus "HOMEQBOMAIR"

/-- A date string the skyscanner reformatting accepts. -/
def dateOkB (s : String) : Bool := (parseDate s).isSome

/-- The tagged result the preset loop appends for one date pair. -/
def taggedResult (env : ApiEnv) (now : String) (preset : Preset) (name d r : String) :
    SearchResult :=
  { searchResultOk env now preset.origin preset.destination d r preset.passengers true with
      trip_name := some name }

/-- A character list of JSON whitespace only. -/
def wsOnly (cs : List Char) : Bool := cs.all isWsChar

/-- A list whose head cannot extend a number literal (used to delimit the
number parser in the round-trip proof). -/
def numStopB : List Char → Bool
  | [] => true
  | c :: _ => !(c.isDigit || c == '.' || c == 'e' || c == 'E')

/-! Theorems. -/

/-- When both dates parse, search_flights succeeds with the canonical
result record. -/
theorem search_flights_eq_ok (env : ApiEnv) (now origin destination depart_date return_date : String)
    (passengers : Int) (use_api : Bool)
    (h1 : dateOkB depart_date = true) (h2 : dateOkB return_date = true) :
    search_flights env now origin destination depart_date return_date passengers use_api =
      .ok (searchResultOk env now origin destination depart_date return_date passengers use_api) := by
  rw [dateOkB] at h1 h2
  obtain ⟨D, hD⟩ := Option.isSome_iff_exists.mp h1
  obtain ⟨R, hR⟩ := Option.isSome_iff_exists.mp h2
  simp only [search_flights, generate_skyscanner_url, searchResultOk, sky_ok, hD, hR,
    Option.getD_some]

/-- Claim C4: with the API disabled, the search result for
PHL to DEN, 2026-01-24 to 2026-01-26 with two passengers maps the kayak key
to exactly the expected URL. -/
theorem C4_kayak_url_example (env : ApiEnv) (now : String) :
    (search_flights env now "PHL" "DEN" "2026-01-24" "2026-01-26" 2 false).map
      (fun r => r.urls.lookup "kayak") =
      .ok (some "https://www.kayak.com/flights/PHL-DEN/2026-01-24/2026-01-26/2adults") := by
  rw [search_flights_eq_ok env now "PHL" "DEN" "2026-01-24" "2026-01-26" 2 false
    (by decide) (by decide)]
  show Except.ok _ = Except.ok _
  congr 1

/-- Claim C10: text-mode formatting of the empty result sequence fails with
an index error from the unconditional first-result access in the
points-portal section. -/
theorem C10_text_empty_index_error : format_results [] "text" = .error .indexError := rfl

/-- Claim C6: an unregistered preset name makes search_date_combinations
fail with the unknown-preset error before any search result is produced. -/
theorem C6_unknown_preset (env : ApiEnv) (now name : String)
    (h : PRESETS.lookup name = none) :
    search_date_combinations env now name = .error .unknownPreset := by
  unfold search_date_combinations
  rw [h]

/-- Witness for C6 at the concrete unregistered name. -/
theorem C6_unknown_preset_witness :
    PRESETS.lookup "nope" = none ∧
    search_date_combinations ⟨none, none, none, none⟩ "ts" "nope" = .error .unknownPreset :=
  ⟨rfl, C6_unknown_preset ⟨none, none, none, none⟩ "ts" "nope" rfl⟩

/-- Claim C3 counterexample: with exactly one passenger the southwest URL
still contains the adultPassengersCount parameter (value 1), and with two
passengers the google direct URL is identical to the one-passenger URL, so
no passenger count is present in it. -/
theorem C3_counterexample :
    generate_southwest_url "PHL" "DEN" "2026-01-24" "2026-01-26" 1 =
      swPre "PHL" "DEN" "2026-01-24" "2026-01-26" ++ "1" ++ swSuf ∧
    generate_google_flights_direct_url "PHL" "DEN" "2026-01-24" "2026-01-26" 2 =
      generate_google_flights_direct_url "PHL" "DEN" "2026-01-24" "2026-01-26" 1 :=
  ⟨by decide, rfl⟩

/-- Claim C3 (amended): the kayak generator omits the passengers segment at
one passenger and appends it above one; the southwest generator includes
the adult passenger count for every passenger value; the google direct
generator returns a URL that never encodes the passenger count. -/
theorem C3_amended (o dst dd rd : String) (p : Int) (hp : 1 < p) :
    generate_kayak_url o dst dd rd p = kayakBase o dst dd rd ++ toString p ++ "adults" ∧
    generate_kayak_url o dst dd rd 1 = kayakBase o dst dd rd ∧
    generate_southwest_url o dst dd rd p =
      swPre o dst dd rd ++ quote_plus (toString p) ++ swSuf ∧
    generate_google_flights_direct_url o dst dd rd p =
      generate_google_flights_direct_url o dst dd rd 1 := by
  refine ⟨?_, ?_, ?_, rfl⟩
  · simp only [generate_kayak_url, kayakBase, if_pos hp, String.append_assoc]
  · unfold generate_kayak_url kayakBase
    norm_num
  · simp only [generate_southwest_url, urlencode, swPre, swSuf, String.append_assoc]

/-- Witness for C3 (amended) at two passengers. -/
theorem C3_amended_witness :
    (1 : Int) < 2 ∧
    (generate_kayak_url "PHL" "DEN" "2026-01-24" "2026-01-26" 2 =
        kayakBase "PHL" "DEN" "2026-01-24" "2026-01-26" ++ toString (2 : Int) ++ "adults" ∧
      generate_kayak_url "PHL" "DEN" "2026-01-24" "2026-01-26" 1 =
        kayakBase "PHL" "DEN" "2026-01-24" "2026-01-26" ∧
      generate_southwest_url "PHL" "DEN" "2026-01-24" "2026-01-26" 2 =
        swPre "PHL" "DEN" "2026-01-24" "2026-01-26" ++ quote_plus (toString (2 : Int)) ++ swSuf ∧
      generate_google_flights_direct_url "PHL" "DEN" "2026-01-24" "2026-01-26" 2 =
        generate_google_flights_direct_url "PHL" "DEN" "2026-01-24" "2026-01-26" 1) :=
  ⟨by decide, C3_amended "PHL" "DEN" "2026-01-24" "2026-01-26" 2 (by decide)⟩

/-- Claim C5 counterexample: on a date string that does not parse as a
calendar date, the kayak, google direct and southwest generators all return
a URL embedding the malformed date verbatim instead of failing. -/
theorem C5_counterexample :
    parseDate "2026-13-99" = none ∧
    generate_kayak_url "PHL" "DEN" "2026-13-99" "2026-13-99" 1 =
      "https://www.kayak.com/flights/PHL-DEN/2026-13-99/2026-13-99/" ∧
    generate_google_flights_direct_url "PHL" "DEN" "2026-13-99" "2026-13-99" 1 =
      "https://www.google.com/travel/flights?q=Flights+to+DEN+from+PHL+on+2026-13-99+through+2026-13-99" ∧
    generate_southwest_url "PHL" "DEN" "2026-13-99" "2026-13-99" 1 =
      swPre "PHL" "DEN" "2026-13-99" "2026-13-99" ++ "1" ++ swSuf :=
  ⟨rfl, by decide, by decide, by decide⟩

/-- Claim C5 (amended): only the skyscanner generator parses its dates; on
a date string that does not parse it fails with the format error, and that
error propagates uncaught through the aggregator. -/
theorem C5_amended (env : ApiEnv) (now o dst dd rd : String) (p : Int) (u : Bool)
    (h : parseDate dd = none) :
    generate_skyscanner_url o dst dd rd p = .error .formatError ∧
    search_flights env now o dst dd rd p u = .error .formatError := by
  have hs : generate_skyscanner_url o dst dd rd p = .error .formatError := by
    unfold generate_skyscanner_url
    rw [h]
  refine ⟨hs, ?_⟩
  unfold search_flights
  rw [hs]

/-- Witness for C5 (amended) at a malformed departure date. -/
theorem C5_amended_witness :
    parseDate "not-a-date" = none ∧
    (generate_skyscanner_url "PHL" "DEN" "not-a-date" "2026-01-26" 1 = .error .formatError ∧
      search_flights ⟨none, none, none, none⟩ "ts" "PHL" "DEN" "not-a-date" "2026-01-26" 1 true =
        .error .formatError) :=
  ⟨rfl, C5_amended ⟨none, none, none, none⟩ "ts" "PHL" "DEN" "not-a-date" "2026-01-26" 1 true rfl⟩

/-- Claim C2: with the API configured and the client failing (for any of
its failure modes), the aggregator still succeeds, stores no offers, and
fully populates both URL mappings with every generator output. -/
theorem C2_api_failure_swallowed (env : ApiEnv) (now o dst dd rd : String) (p : Int)
    (hc : is_configured env = true) (hf : amadeus_search_flights env = none)
    (h1 : dateOkB dd = true) (h2 : dateOkB rd = true) :
    ∃ r, search_flights env now o dst dd rd p true = .ok r ∧
      r.api_results = none ∧
      r.urls = [("google_flights", generate_google_flights_direct_url o dst dd rd p),
        ("kayak", generate_kayak_url o dst dd rd p),
        ("skyscanner", sky_ok o dst dd rd),
        ("southwest", generate_southwest_url o dst dd rd p)] ∧
      r.points_urls = [("chase_ultimate_rewards", generate_chase_ur_url),
        ("citi_thankyou", generate_citi_ty_url)] := by
  refine ⟨searchResultOk env now o dst dd rd p true,
    search_flights_eq_ok env now o dst dd rd p true h1 h2, ?_, rfl, rfl⟩
  simp [searchResultOk, hc, hf]

/-- Witness for C2 with a configured client whose token request fails. -/
theorem C2_api_failure_swallowed_witness :
    is_configured ⟨some "key", some "secret", none, none⟩ = true ∧
    amadeus_search_flights ⟨some "key", some "secret", none, none⟩ = none ∧
    dateOkB "2026-01-24" = true ∧ dateOkB "2026-01-26" = true ∧
    (∃ r, search_flights ⟨some "key", some "secret", none, none⟩ "ts"
        "PHL" "DEN" "2026-01-24" "2026-01-26" 2 true = .ok r ∧
      r.api_results = none ∧
      r.urls = [("google_flights",
          generate_google_flights_direct_url "PHL" "DEN" "2026-01-24" "2026-01-26" 2),
        ("kayak", generate_kayak_url "PHL" "DEN" "2026-01-24" "2026-01-26" 2),
        ("skyscanner", sky_ok "PHL" "DEN" "2026-01-24" "2026-01-26"),
        ("southwest", generate_southwest_url "PHL" "DEN" "2026-01-24" "2026-01-26" 2)] ∧
      r.points_urls = [("chase_ultimate_rewards", generate_chase_ur_url),
        ("citi_thankyou", generate_citi_ty_url)]) :=
  ⟨rfl, rfl, rfl, rfl, C2_api_failure_swallowed ⟨some "key", some "secret", none, none⟩ "ts"
    "PHL" "DEN" "2026-01-24" "2026-01-26" 2 rfl rfl rfl rfl⟩

/-- Claim C8: with use_api false the result does not depend on the API
environment at all (the client is never consulted), offers stay absent, and
the URL and points mappings are populated. -/
theorem C8_no_api_no_network (env env' : ApiEnv) (now o dst dd rd : String) (p : Int)
    (h1 : dateOkB dd = true) (h2 : dateOkB rd = true) :
    search_flights env now o dst dd rd p false = search_flights env' now o dst dd rd p false ∧
    ∃ r, search_flights env now o dst dd rd p false = .ok r ∧
      r.api_results = none ∧ r.urls ≠ [] ∧ r.points_urls ≠ [] := by
  refine ⟨rfl, searchResultOk env now o dst dd rd p false,
    search_flights_eq_ok env now o dst dd rd p false h1 h2, rfl, ?_, ?_⟩
  · simp [searchResultOk]
  · simp [searchResultOk]

/-- Witness for C8 on two distinct environments. -/
theorem C8_no_api_no_network_witness :
    dateOkB "2026-01-24" = true ∧ dateOkB "2026-01-26" = true ∧
    (search_flights ⟨some "key", some "secret", some (.obj []), some (.obj [])⟩ "ts"
        "PHL" "DEN" "2026-01-24" "2026-01-26" 2 false =
      search_flights ⟨none, none, none, none⟩ "ts"
        "PHL" "DEN" "2026-01-24" "2026-01-26" 2 false ∧
    ∃ r, search_flights ⟨some "key", some "secret", some (.obj []), some (.obj [])⟩ "ts"
        "PHL" "DEN" "2026-01-24" "2026-01-26" 2 false = .ok r ∧
      r.api_results = none ∧ r.urls ≠ [] ∧ r.points_urls ≠ []) :=
  ⟨rfl, rfl, C8_no_api_no_network ⟨some "key", some "secret", some (.obj []), some (.obj [])⟩
    ⟨none, none, none, none⟩ "ts" "PHL" "DEN" "2026-01-24" "2026-01-26" 2 rfl rfl⟩

/-- The inner preset loop appends one tagged successful result per return
date, in order, when every date parses. -/
theorem innerLoop_ok (env : ApiEnv) (now : String) (preset : Preset) (name d : String)
    (hd : dateOkB d = true) :
    ∀ (rs : List String) (acc : List SearchResult), rs.all dateOkB = true →
      innerLoop env now preset name d rs acc =
        .ok (acc ++ rs.map (fun r => taggedResult env now preset name d r)) := by
  intro rs
  induction rs with
  | nil => intro acc _; simp [innerLoop]
  | cons r rs ih =>
    intro acc h
    rw [List.all_cons, Bool.and_eq_true] at h
    have hs := search_flights_eq_ok env now preset.origin preset.destination d r
      preset.passengers true hd h.1
    simp only [innerLoop, hs, ih _ h.2, taggedResult, List.map_cons, List.append_assoc,
      List.singleton_append]

/-- The outer preset loop produces the departure-date-major cartesian
product of tagged results when every date parses. -/
theorem outerLoop_ok (env : ApiEnv) (now : String) (preset : Preset) (name : String)
    (hr : preset.return_dates.all dateOkB = true) :
    ∀ (ds : List String) (acc : List SearchResult), ds.all dateOkB = true →
      outerLoop env now preset name ds acc =
        .ok (acc ++ ds.flatMap (fun d =>
          preset.return_dates.map (fun r => taggedResult env now preset name d r))) := by
  intro ds
  induction ds with
  | nil => intro acc _; simp [outerLoop]
  | cons d ds ih =>
    intro acc h
    rw [List.all_cons, Bool.and_eq_true] at h
    simp only [outerLoop, innerLoop_ok env now preset name d h.1 preset.return_dates acc hr,
      ih _ h.2, List.flatMap_cons, List.append_assoc]

/-- Length of a flat map whose pieces all have the same length. -/
theorem length_flatMap_const {α β : Type} (l : List α) (f : α → List β) (m : Nat)
    (h : ∀ a, (f a).length = m) : (l.flatMap f).length = l.length * m := by
  induction l with
  | nil => simp
  | cons a l ih => simp [List.flatMap_cons, h, ih, Nat.succ_mul, Nat.add_comm]

/-- Claim C7: a registered preset with parsing dates yields exactly the
departure-date-major cartesian product of per-pair results, of length N
times M, each produced by one search_flights call and tagged with the
preset name. -/
theorem C7_preset_cartesian (env : ApiEnv) (now name : String) (preset : Preset)
    (h1 : PRESETS.lookup name = some preset)
    (h2 : preset.outbound_dates.all dateOkB = true)
    (h3 : preset.return_dates.all dateOkB = true) :
    search_date_combinations env now name =
      .ok (preset.outbound_dates.flatMap (fun d =>
        preset.return_dates.map (fun r => taggedResult env now preset name d r))) ∧
    (preset.outbound_dates.flatMap (fun d =>
      preset.return_dates.map (fun r => taggedResult env now preset name d r))).length =
      preset.outbound_dates.length * preset.return_dates.length ∧
    ∀ d ∈ preset.outbound_dates, ∀ r ∈ preset.return_dates,
      search_flights env now preset.origin preset.destination d r preset.passengers true =
        .ok (searchResultOk env now preset.origin preset.destination d r preset.passengers true) ∧
      taggedResult env now preset name d r =
        { searchResultOk env now preset.origin preset.destination d r preset.passengers true with
            trip_name := some name } := by
  refine ⟨?_, ?_, ?_⟩
  · unfold search_date_combinations
    rw [h1]
    simpa using outerLoop_ok env now preset name h3 preset.outbound_dates [] h2
  · exact length_flatMap_const _ _ _ (fun d => by simp)
  · intro d hdm r hrm
    exact ⟨search_flights_eq_ok env now preset.origin preset.destination d r preset.passengers
      true (by simpa using List.all_eq_true.mp h2 d hdm)
      (by simpa using List.all_eq_true.mp h3 r hrm), rfl⟩

/-- Witness for C7 on the registered colorado_trip preset (two outbound
dates, four return dates, eight results). -/
theorem C7_preset_cartesian_witness :
    PRESETS.lookup "colorado_trip" = some coloradoPreset ∧
    coloradoPreset.outbound_dates.all dateOkB = true ∧
    coloradoPreset.return_dates.all dateOkB = true ∧
    (search_date_combinations ⟨none, none, none, none⟩ "ts" "colorado_trip" =
      .ok (coloradoPreset.outbound_dates.flatMap (fun d =>
        coloradoPreset.return_dates.map (fun r =>
          taggedResult ⟨none, none, none, none⟩ "ts" coloradoPreset "colorado_trip" d r))) ∧
    (coloradoPreset.outbound_dates.flatMap (fun d =>
      coloradoPreset.return_dates.map (fun r =>
        taggedResult ⟨none, none, none, none⟩ "ts" coloradoPreset "colorado_trip" d r))).length =
      coloradoPreset.outbound_dates.length * coloradoPreset.return_dates.length ∧
    ∀ d ∈ coloradoPreset.outbound_dates, ∀ r ∈ coloradoPreset.return_dates,
      search_flights ⟨none, none, none, none⟩ "ts" coloradoPreset.origin
          coloradoPreset.destination d r coloradoPreset.passengers true =
        .ok (searchResultOk ⟨none, none, none, none⟩ "ts" coloradoPreset.origin
          coloradoPreset.destination d r coloradoPreset.passengers true) ∧
      taggedResult ⟨none, none, none, none⟩ "ts" coloradoPreset "colorado_trip" d r =
        { searchResultOk ⟨none, none, none, none⟩ "ts" coloradoPreset.origin
            coloradoPreset.destination d r coloradoPreset.passengers true with
            trip_name := some "colorado_trip" }) :=
  ⟨rfl, by decide, by decide,
    C7_preset_cartesian ⟨none, none, none, none⟩ "ts" "colorado_trip" coloradoPreset rfl
      (by decide) (by decide)⟩

/-- Bind of a successful Except computation. -/
theorem except_bind_ok {ε α β : Type} (a : α) (f : α → Except ε β) :
    (Except.ok a : Except ε α) >>= f = f a := rfl

/-- Bind of a failed Except computation. -/
theorem except_bind_err {ε α β : Type} (e : ε) (f : α → Except ε β) :
    (Except.error e : Except ε α) >>= f = Except.error e := rfl

/-- Pure of Except. -/
theorem except_pure {ε α : Type} (a : α) : (pure a : Except ε α) = Except.ok a := rfl

/-- A value satisfying isObjB is a dict. -/
theorem isObjB_obj {v : JValue} (h : isObjB v = true) : ∃ fs, v = .obj fs := by
  cases v with
  | obj fs => exact ⟨fs, rfl⟩
  | null => simp [isObjB] at h
  | bool b => simp [isObjB] at h
  | num d => simp [isObjB] at h
  | str s => simp [isObjB] at h
  | arr xs => simp [isObjB] at h

/-- A value satisfying isArrB is a list. -/
theorem isArrB_arr {v : JValue} (h : isArrB v = true) : ∃ xs, v = .arr xs := by
  cases v with
  | arr xs => exact ⟨xs, rfl⟩
  | null => simp [isArrB] at h
  | bool b => simp [isArrB] at h
  | num d => simp [isArrB] at h
  | str s => simp [isArrB] at h
  | obj fs => simp [isArrB] at h

/-- A well-shaped segment parses. -/
theorem parseSegment_ok {s : JValue} (h : segWF s = true) : ∃ i, parseSegment s = .ok i := by
  simp only [segWF, Bool.and_eq_true] at h
  obtain ⟨⟨⟨h0, h1⟩, h2⟩, h3⟩ := h
  obtain ⟨fs, rfl⟩ := isObjB_obj h0
  simp only [getFieldD, lookupD] at h1 h2
  obtain ⟨dfs, hd⟩ := isObjB_obj h1
  obtain ⟨afs, ha⟩ := isObjB_obj h2
  refine ⟨⟨lookupD dfs "iataCode" .null, lookupD afs "iataCode" .null, lookupD dfs "at" .null,
    lookupD afs "at" .null, lookupD fs "carrierCode" .null, lookupD fs "number" .null,
    lookupD fs "duration" .null⟩, ?_⟩
  simp only [parseSegment, pyGetD, lookupD, hd, ha, except_bind_ok, except_pure]

/-- A list of well-shaped segments parses from any accumulator state. -/
theorem parseSegments_ok (ss : List JValue) : ss.all segWF = true →
    ∀ segs air, ∃ out, parseSegments () ss segs air = .ok out := by
  induction ss with
  | nil => intro _ segs air; exact ⟨(segs, air), rfl⟩
  | cons s ss ih =>
    intro h segs air
    rw [List.all_cons, Bool.and_eq_true] at h
    obtain ⟨i, hi⟩ := parseSegment_ok h.1
    have h1 := h.1
    simp only [segWF, Bool.and_eq_true] at h1
    obtain ⟨⟨⟨h0, _⟩, _⟩, h3⟩ := h1
    obtain ⟨fs, rfl⟩ := isObjB_obj h0
    simp only [getFieldD, lookupD] at h3
    obtain ⟨out, hout⟩ := ih h.2 (segs ++ [i])
      (if air.any (fun w => scalarEq w ((fs.lookup "carrierCode").getD .null)) then air
       else air ++ [(fs.lookup "carrierCode").getD .null])
    refine ⟨out, ?_⟩
    simp only [parseSegments, hi, except_bind_ok, pyGetD, lookupD, setAdd, h3, if_true, hout]

/-- A list of well-shaped itineraries parses from any accumulator state. -/
theorem parseItins_ok (its : List JValue) : its.all itinWF = true →
    ∀ segs air, ∃ out, parseItins () its segs air = .ok out := by
  induction its with
  | nil => intro _ segs air; exact ⟨(segs, air), rfl⟩
  | cons it its ih =>
    intro h segs air
    rw [List.all_cons, Bool.and_eq_true] at h
    have h1 := h.1
    simp only [itinWF, Bool.and_eq_true] at h1
    obtain ⟨⟨h0, hsv⟩, hall⟩ := h1
    obtain ⟨fs, rfl⟩ := isObjB_obj h0
    simp only [getFieldD, lookupD] at hsv hall
    obtain ⟨ss, hss⟩ := isArrB_arr hsv
    rw [hss] at hall
    simp only [arrElems] at hall
    obtain ⟨sa, hsa⟩ := parseSegments_ok ss hall segs air
    obtain ⟨out, hout⟩ := ih h.2 sa.1 sa.2
    refine ⟨out, ?_⟩
    simp only [parseItins, pyGetD, lookupD, hss, pyIter, except_bind_ok, hsa, hout]

/-- A value float() accepts converts. -/
theorem pyFloat_of_floatable {v : JValue} (h : floatableJ v = true) : ∃ x, pyFloat v = .ok x := by
  cases v with
  | num d => exact ⟨d, rfl⟩
  | bool b => exact ⟨_, rfl⟩
  | str s =>
    simp only [floatableJ] at h
    obtain ⟨d, hd⟩ := Option.isSome_iff_exists.mp h
    exact ⟨d, by simp [pyFloat, hd]⟩
  | null => simp [floatableJ] at h
  | arr xs => simp [floatableJ] at h
  | obj fs => simp [floatableJ] at h

/-- A well-shaped offer parses. -/
theorem parseOffer_ok {o : JValue} (h : offerWF o = true) : ∃ p, parseOffer o = .ok p := by
  simp only [offerWF, Bool.and_eq_true] at h
  obtain ⟨⟨⟨⟨h0, hpv⟩, htot⟩, hiv⟩, hall⟩ := h
  obtain ⟨fs, rfl⟩ := isObjB_obj h0
  simp only [getFieldD, lookupD] at hpv htot hiv hall
  obtain ⟨ps, hps⟩ := isObjB_obj hpv
  rw [hps] at htot
  simp only [getFieldD, lookupD] at htot
  obtain ⟨x, hx⟩ := pyFloat_of_floatable htot
  obtain ⟨its, hits⟩ := isArrB_arr hiv
  rw [hits] at hall
  simp only [arrElems] at hall
  obtain ⟨sa, hsa⟩ := parseItins_ok its hall [] []
  refine ⟨⟨x, lookupD ps "currency" (.str "USD"), sa.1, sa.2⟩, ?_⟩
  simp only [parseOffer, pyGetD, lookupD, hps, hits, pyIter, except_bind_ok, hx, hsa,
    except_pure]

/-- A list of well-shaped offers parses in full, one parsed offer per
response offer. -/
theorem parseOffersList_ok (os : List JValue) : os.all offerWF = true →
    ∀ acc, ∃ out, parseOffersList os acc = .ok out ∧ out.length = acc.length + os.length := by
  induction os with
  | nil => intro _ acc; exact ⟨acc, rfl, rfl⟩
  | cons o os ih =>
    intro h acc
    rw [List.all_cons, Bool.and_eq_true] at h
    obtain ⟨p, hp⟩ := parseOffer_ok h.1
    obtain ⟨out, hout, hlen⟩ := ih h.2 (acc ++ [p])
    refine ⟨out, ?_, ?_⟩
    · simp only [parseOffersList, hp, except_bind_ok, hout]
    · simp [hlen]
      omega

/-- Claim C1 counterexample: a response whose first offer carries a
non-numeric price total makes the whole parse raise, discarding the
well-formed second offer — although that second offer parses fine on its
own. -/
theorem C1_counterexample :
    parse_offers (.obj [("data", .arr [
      .obj [("price", .obj [("total", .str "abc")])],
      .obj [("price", .obj [("total", .str "199.99"), ("currency", .str "USD")])]])]) =
      .error .valueError ∧
    parse_offers (.obj [("data", .arr [
      .obj [("price", .obj [("total", .str "199.99"), ("currency", .str "USD")])]])]) =
      .ok [{ price := ⟨19999, 2⟩, currency := .str "USD", segments := [], airlines := [] }] :=
  ⟨rfl, rfl⟩

/-- Claim C1 (amended): offers whose nested fields are merely missing (not
wrongly typed) all parse, one parsed offer per response offer, with the
missing fields degrading to defaults (price 0, currency USD, null segment
fields, a null airline entry for a segment without a carrier code); a
wrongly-typed or unparseable field instead raises, discarding the whole
response. -/
theorem C1_amended (offers : List JValue) (h : offers.all offerWF = true) :
    (∃ parsed, parse_offers (.obj [("data", .arr offers)]) = .ok parsed ∧
      parsed.length = offers.length) ∧
    parseOffer (.obj []) =
      .ok { price := ⟨0, 0⟩, currency := .str "USD", segments := [], airlines := [] } ∧
    parseOffer (.obj [("itineraries", .arr [.obj [("segments", .arr [.obj []])]])]) =
      .ok { price := ⟨0, 0⟩, currency := .str "USD",
            segments := [{ departure := .null, arrival := .null, departure_time := .null,
                           arrival_time := .null, carrier := .null, flight_number := .null,
                           duration := .null }],
            airlines := [.null] } := by
  refine ⟨?_, rfl, rfl⟩
  obtain ⟨out, hout, hlen⟩ := parseOffersList_ok offers h []
  have h1 : parse_offers (.obj [("data", .arr offers)]) = parseOffersList offers [] := rfl
  rw [h1, hout]
  exact ⟨out, rfl, by simpa using hlen⟩

/-- Witness for C1 (amended) on three offers with fields missing at every
level. -/
theorem C1_amended_witness :
    ([JValue.obj [], .obj [("price", .obj [("total", .str "123.45")])],
      .obj [("itineraries", .arr [.obj [("segments", .arr [.obj []])]])]].all offerWF = true) ∧
    ((∃ parsed, parse_offers (.obj [("data", .arr [JValue.obj [],
        .obj [("price", .obj [("total", .str "123.45")])],
        .obj [("itineraries", .arr [.obj [("segments", .arr [.obj []])]])]])]) = .ok parsed ∧
      parsed.length = 3) ∧
    parseOffer (.obj []) =
      .ok { price := ⟨0, 0⟩, currency := .str "USD", segments := [], airlines := [] } ∧
    parseOffer (.obj [("itineraries", .arr [.obj [("segments", .arr [.obj []])]])]) =
      .ok { price := ⟨0, 0⟩, currency := .str "USD",
            segments := [{ departure := .null, arrival := .null, departure_time := .null,
                           arrival_time := .null, carrier := .null, flight_number := .null,
                           duration := .null }],
            airlines := [.null] }) :=
  ⟨by decide, C1_amended [JValue.obj [], .obj [("price", .obj [("total", .str "123.45")])],
    .obj [("itineraries", .arr [.obj [("segments", .arr [.obj []])]])]] (by decide)⟩

/-- Folding digits from a non-zero initial value shifts it by the length. -/
theorem foldl_digits_init (b : List Char) : ∀ init : Nat,
    b.foldl (fun a c => a * 10 + (c.toNat - 48)) init =
      init * 10 ^ b.length + b.foldl (fun a c => a * 10 + (c.toNat - 48)) 0 := by
  induction b with
  | nil => intro init; simp
  | cons c b ih =>
    intro init
    simp only [List.foldl_cons, List.length_cons]
    rw [ih, ih (0 * 10 + (c.toNat - 48))]
    ring

/-- Digit-list value of a concatenation. -/
theorem digitsToNat_append (a b : List Char) :
    digitsToNat (a ++ b) = digitsToNat a * 10 ^ b.length + digitsToNat b := by
  simp only [digitsToNat, List.foldl_append]
  exact foldl_digits_init b _

/-- Leading zeros do not change the value. -/
theorem digitsToNat_replicate_zero (k : Nat) (b : List Char) :
    digitsToNat (List.replicate k '0' ++ b) = digitsToNat b := by
  rw [digitsToNat_append]
  have : digitsToNat (List.replicate k '0') = 0 := by
    induction k with
    | zero => rfl
    | succ k ih =>
      rw [List.replicate_succ]
      show digitsToNat ('0' :: List.replicate k '0') = 0
      have := foldl_digits_init (List.replicate k '0') ((0 : Nat) * 10 + ('0'.toNat - 48))
      simp only [digitsToNat, List.foldl_cons] at ih ⊢
      rw [this]
      simpa using ih
  simp [this]

/-- The digit accumulator only prepends. -/
theorem natDigitsGo_append (n : Nat) : ∀ acc, natDigitsGo n acc = natDigitsGo n [] ++ acc := by
  induction n using Nat.strong_induction_on with
  | _ n ih =>
    intro acc
    match n with
    | 0 => simp [natDigitsGo]
    | m + 1 =>
      rw [natDigitsGo, ih ((m + 1) / 10) (Nat.div_lt_self (Nat.succ_pos m) (by omega))]
      conv_rhs => rw [natDigitsGo, ih ((m + 1) / 10) (Nat.div_lt_self (Nat.succ_pos m) (by omega))]
      simp

/-- digitChar of a digit value is a digit character. -/
theorem digitChar_isDigit {d : Nat} (h : d < 10) : (digitChar d).isDigit = true := by
  interval_cases d <;> decide

/-- digitChar round-trips its value. -/
theorem digitChar_sub (d : Nat) (h : d < 10) : (digitChar d).toNat - 48 = d := by
  interval_cases d <;> decide

/-- Every produced digit character is a digit. -/
theorem natDigitsGo_all_digit (n : Nat) : ∀ c ∈ natDigitsGo n [], c.isDigit = true := by
  induction n using Nat.strong_induction_on with
  | _ n ih =>
    match n with
    | 0 => intro c hc; simp [natDigitsGo] at hc
    | m + 1 =>
      intro c hc
      rw [natDigitsGo, natDigitsGo_append] at hc
      rcases List.mem_append.mp hc with h | h
      · exact ih ((m + 1) / 10) (Nat.div_lt_self (Nat.succ_pos m) (by omega)) c h
      · rw [List.mem_singleton.mp h]
        exact digitChar_isDigit (Nat.mod_lt _ (by omega))

/-- The digits of a positive number evaluate back to it. -/
theorem digitsToNat_natDigitsGo (n : Nat) (h : 0 < n) : digitsToNat (natDigitsGo n []) = n := by
  induction n using Nat.strong_induction_on with
  | _ n ih =>
    match n with
    | 0 => omega
    | m + 1 =>
      rw [natDigitsGo, natDigitsGo_append]
      rw [digitsToNat_append]
      by_cases h10 : (m + 1) / 10 = 0
      · rw [h10]
        simp [natDigitsGo, digitsToNat, digitChar_sub ((m + 1) % 10) (Nat.mod_lt _ (by omega))]
        omega
      · rw [ih ((m + 1) / 10) (Nat.div_lt_self (Nat.succ_pos m) (by omega)) (by omega)]
        simp [digitsToNat, digitChar_sub ((m + 1) % 10) (Nat.mod_lt _ (by omega))]
        omega

/-- All characters of natDigits are digits. -/
theorem natDigits_all_digit (n : Nat) : ∀ c ∈ natDigits n, c.isDigit = true := by
  unfold natDigits
  by_cases h : n = 0
  · simp [h]
  · simp [h]
    exact natDigitsGo_all_digit n

/-- natDigits evaluates back to its number. -/
theorem digitsToNat_natDigits (n : Nat) : digitsToNat (natDigits n) = n := by
  unfold natDigits
  by_cases h : n = 0
  · simp [h]
    decide
  · simp [h]
    exact digitsToNat_natDigitsGo n (by omega)

/-- natDigits is never empty. -/
theorem natDigits_ne_nil (n : Nat) : natDigits n ≠ [] := by
  unfold natDigits
  by_cases h : n = 0
  · simp [h]
  · simp [h]
    match n, h with
    | m + 1, _ =>
      rw [natDigitsGo, natDigitsGo_append]
      simp

/-- takeWhile and dropWhile split a concatenation at the boundary where the
predicate flips. -/
theorem takeWhile_all_append (p : Char → Bool) : ∀ (l r : List Char), (∀ c ∈ l, p c = true) →
    (∀ c, r.head? = some c → p c = false) →
    (l ++ r).takeWhile p = l ∧ (l ++ r).dropWhile p = r := by
  intro l
  induction l with
  | nil =>
    intro r _ hr
    constructor
    · cases r with
      | nil => rfl
      | cons c cs => simp [List.takeWhile_cons, hr c rfl]
    · cases r with
      | nil => rfl
      | cons c cs => simp [List.dropWhile_cons, hr c rfl]
  | cons a l ih =>
    intro r hl hr
    have ha := hl a (by simp)
    have h2 := ih r (fun c hc => hl c (by simp [hc])) hr
    constructor
    · simp [List.takeWhile_cons, ha, h2.1]
    · simp [List.dropWhile_cons, ha, h2.2]

theorem numStop_head {c : Char} {t : List Char} (h : numStopB (c :: t) = true) :
    c.isDigit = false ∧ c ≠ '.' ∧ c ≠ 'e' ∧ c ≠ 'E' := by
  simp only [numStopB, Bool.not_eq_true', Bool.or_eq_false_iff, beq_eq_false_iff_ne, ne_eq] at h
  obtain ⟨⟨⟨h1, h2⟩, h3⟩, h4⟩ := h
  exact ⟨h1, h2, h3, h4⟩

theorem numStop_not_digit {rest : List Char} (h : numStopB rest = true) :
    ∀ c, rest.head? = some c → c.isDigit = false := by
  intro c hc
  cases rest with
  | nil => simp at hc
  | cons r t =>
    simp at hc
    subst hc
    exact (numStop_head h).1

theorem finishNum_stop (m : Int) (e : Nat) (rest : List Char) (h : numStopB rest = true) :
    finishNum m e rest = some (⟨m, e⟩, rest) := by
  cases rest with
  | nil => rfl
  | cons c t =>
    obtain ⟨_, _, he, hE⟩ := numStop_head h
    simp [finishNum, he, hE]

theorem parseNumBody_int (ds : List Char) (rest : List Char) (hne : ds ≠ [])
    (hdig : ∀ c ∈ ds, c.isDigit = true) (hrest : numStopB rest = true) :
    parseNumBody (ds ++ rest) = some (⟨Int.ofNat (digitsToNat ds), 0⟩, rest) := by
  obtain ⟨tw, dw⟩ := takeWhile_all_append Char.isDigit ds rest hdig (numStop_not_digit hrest)
  have hie : ds.isEmpty = false := by
    cases ds with
    | nil => exact absurd rfl hne
    | cons a l => rfl
  simp only [parseNumBody, tw, dw, hie, Bool.false_eq_true, if_false]
  cases rest with
  | nil => exact finishNum_stop _ _ _ (by rfl)
  | cons c t =>
    obtain ⟨hd, hdot, he, hE⟩ := numStop_head hrest
    split
    · rename_i t2 heq
      rw [List.cons.injEq] at heq
      exact absurd heq.1 hdot
    · exact finishNum_stop _ _ _ hrest

theorem parseNumBody_frac (ds fs : List Char) (rest : List Char) (hdne : ds ≠ [])
    (hfne : fs ≠ [])
    (hddig : ∀ c ∈ ds, c.isDigit = true) (hfdig : ∀ c ∈ fs, c.isDigit = true)
    (hrest : numStopB rest = true) :
    parseNumBody (ds ++ '.' :: (fs ++ rest)) =
      some (⟨Int.ofNat (digitsToNat (ds ++ fs)), fs.length⟩, rest) := by
  obtain ⟨tw, dw⟩ := takeWhile_all_append Char.isDigit ds ('.' :: (fs ++ rest)) hddig
    (by intro c hc; simp at hc; subst hc; decide)
  obtain ⟨tw2, dw2⟩ := takeWhile_all_append Char.isDigit fs rest hfdig
    (numStop_not_digit hrest)
  have hie : ds.isEmpty = false := by
    cases ds with
    | nil => exact absurd rfl hdne
    | cons a l => rfl
  have hfe : fs.isEmpty = false := by
    cases fs with
    | nil => exact absurd rfl hfne
    | cons a l => rfl
  simp only [parseNumBody, tw, dw, tw2, dw2, hie, hfe, Bool.false_eq_true, if_false]
  exact finishNum_stop _ _ _ hrest


theorem replicate_all_digit (k : Nat) : ∀ c ∈ List.replicate k '0', c.isDigit = true := by
  intro c hc
  rw [List.eq_of_mem_replicate hc]
  decide

theorem padded_facts (n e : Nat) (he : e ≠ 0) :
    ∀ c ∈ List.replicate (e + 1 - (natDigits n).length) '0' ++ natDigits n, c.isDigit = true := by
  intro c hc
  rcases List.mem_append.mp hc with h | h
  · exact replicate_all_digit _ c h
  · exact natDigits_all_digit n c h

theorem parseNumBody_renderBody (n e : Nat) (rest : List Char) (hrest : numStopB rest = true) :
    parseNumBody (renderDecBody n e ++ rest) = some (⟨Int.ofNat n, e⟩, rest) := by
  by_cases he : e = 0
  · subst he
    simp only [renderDecBody, eq_self_iff_true, if_true]
    rw [parseNumBody_int (natDigits n) rest (natDigits_ne_nil n) (natDigits_all_digit n) hrest]
    rw [digitsToNat_natDigits]
  · simp only [renderDecBody, if_neg he]
    have hplen : (List.replicate (e + 1 - (natDigits n).length) '0' ++ natDigits n).length =
        (e + 1 - (natDigits n).length) + (natDigits n).length := by
      simp
    have hge : e + 1 ≤ (List.replicate (e + 1 - (natDigits n).length) '0' ++ natDigits n).length := by
      rw [hplen]; omega
    have hall := padded_facts n e he
    set padded := List.replicate (e + 1 - (natDigits n).length) '0' ++ natDigits n with hp
    have hi_len : (padded.take (padded.length - e)).length = padded.length - e := by
      rw [List.length_take]; omega
    have hf_len : (padded.drop (padded.length - e)).length = e := by
      rw [List.length_drop]; omega
    have hi_ne : padded.take (padded.length - e) ≠ [] := by
      intro hnil
      rw [hnil] at hi_len
      simp at hi_len
      omega
    have hf_ne : padded.drop (padded.length - e) ≠ [] := by
      intro hnil
      rw [hnil] at hf_len
      simp at hf_len
      omega
    have hi_dig : ∀ c ∈ padded.take (padded.length - e), c.isDigit = true :=
      fun c hc => hall c (List.take_subset _ _ hc)
    have hf_dig : ∀ c ∈ padded.drop (padded.length - e), c.isDigit = true :=
      fun c hc => hall c (List.drop_subset _ _ hc)
    have hshape : (padded.take (padded.length - e) ++ '.' :: padded.drop (padded.length - e)) ++
        rest = padded.take (padded.length - e) ++ '.' :: (padded.drop (padded.length - e) ++ rest) := by
      simp
    rw [hshape, parseNumBody_frac _ _ _ hi_ne hf_ne hi_dig hf_dig hrest,
      List.take_append_drop, hf_len]
    rw [show digitsToNat padded = n from by rw [hp, digitsToNat_replicate_zero, digitsToNat_natDigits]]

theorem renderDecBody_head (n e : Nat) :
    ∃ c tl, renderDecBody n e = c :: tl ∧ c.isDigit = true := by
  by_cases he : e = 0
  · subst he
    simp only [renderDecBody, eq_self_iff_true, if_true]
    obtain ⟨c, tl, hc⟩ := List.exists_cons_of_ne_nil (natDigits_ne_nil n)
    exact ⟨c, tl, hc, natDigits_all_digit n c (by rw [hc]; simp)⟩
  · simp only [renderDecBody, if_neg he]
    set padded := List.replicate (e + 1 - (natDigits n).length) '0' ++ natDigits n with hp
    have hplen : e + 1 ≤ padded.length := by
      rw [hp]; simp; omega
    have hi_len : (padded.take (padded.length - e)).length = padded.length - e := by
      rw [List.length_take]; omega
    have hi_ne : padded.take (padded.length - e) ≠ [] := by
      intro hnil
      rw [hnil] at hi_len
      simp at hi_len
      omega
    obtain ⟨c, tl, hc⟩ := List.exists_cons_of_ne_nil hi_ne
    refine ⟨c, tl ++ '.' :: padded.drop (padded.length - e), by rw [hc]; simp, ?_⟩
    have : c ∈ padded.take (padded.length - e) := by rw [hc]; simp
    exact padded_facts n e he c (List.take_subset _ _ this)

theorem parseNum_render (d : Dec) (rest : List Char) (hrest : numStopB rest = true) :
    parseNum (renderDec d ++ rest) = some (d, rest) := by
  obtain ⟨m, e⟩ := d
  by_cases hm : m < 0
  · have : renderDec ⟨m, e⟩ ++ rest = '-' :: (renderDecBody m.natAbs e ++ rest) := by
      simp [renderDec, hm]
    rw [this]
    show (parseNumBody (renderDecBody m.natAbs e ++ rest)).map _ = _
    rw [parseNumBody_renderBody m.natAbs e rest hrest]
    have hneg : -(Int.ofNat m.natAbs) = m := by
      show -((m.natAbs : Int)) = m
      omega
    simp only [Option.map_some', hneg]
  · have : renderDec ⟨m, e⟩ ++ rest = renderDecBody m.natAbs e ++ rest := by
      simp [renderDec, hm]
    rw [this]
    obtain ⟨c, tl, hc, hcd⟩ := renderDecBody_head m.natAbs e
    rw [hc]
    show parseNum (c :: (tl ++ rest)) = _
    have hcne : c ≠ '-' := by
      intro hceq
      rw [hceq] at hcd
      exact absurd hcd (by decide)
    unfold parseNum
    split
    · rename_i t heq
      rw [List.cons.injEq] at heq
      exact absurd heq.1 hcne
    · have hpos : Int.ofNat m.natAbs = m := by
        show ((m.natAbs : Int)) = m
        omega
      rw [show c :: (tl ++ rest) = (c :: tl) ++ rest from rfl, ← hc,
        parseNumBody_renderBody m.natAbs e rest hrest, hpos]

theorem hexVal_hexLo {d : Nat} (h : d < 16) : hexVal (hexLoChar d) = some d := by
  interval_cases d <;> decide

theorem option_bind_some {α β : Type} (a : α) (f : α → Option β) : (some a >>= f) = f a := rfl

theorem hex4Val_hex4 (n : Nat) (h : n < 65536) :
    hex4Val (hexLoChar (n / 4096 % 16)) (hexLoChar (n / 256 % 16)) (hexLoChar (n / 16 % 16))
      (hexLoChar (n % 16)) = some n := by
  simp only [hex4Val, hexVal_hexLo (Nat.mod_lt _ (by omega)), option_bind_some, Option.pure_def,
    Option.some.injEq]
  omega

theorem char_toNat_valid (c : Char) :
    c.toNat < 0xd800 ∨ (0xdfff < c.toNat ∧ c.toNat < 0x110000) := by
  rcases c.valid with h | ⟨h1, h2⟩
  · exact Or.inl (UInt32.toNat_lt_of_lt (by decide) h)
  · exact Or.inr ⟨UInt32.lt_toNat_of_lt (by decide) h1, UInt32.toNat_lt_of_lt (by decide) h2⟩

set_option maxHeartbeats 2000000 in
theorem escape_parse (c : Char) :
    (escapeChar c = [c] ∧ c ≠ '"' ∧ c ≠ '\\') ∨
    (∃ body, escapeChar c = '\\' :: body ∧ ∀ r, parseEsc (body ++ r) = some (c, r)) := by
  by_cases h1 : c = '"'
  · subst h1; exact Or.inr ⟨['"'], rfl, fun r => rfl⟩
  by_cases h2 : c = '\\'
  · subst h2; exact Or.inr ⟨['\\'], by simp [escapeChar], fun r => rfl⟩
  by_cases h3 : c = Char.ofNat 8
  · subst h3; exact Or.inr ⟨['b'], by simp [escapeChar], fun r => rfl⟩
  by_cases h4 : c = '\t'
  · subst h4; exact Or.inr ⟨['t'], by simp [escapeChar], fun r => rfl⟩
  by_cases h5 : c = '\n'
  · subst h5; exact Or.inr ⟨['n'], by simp [escapeChar], fun r => rfl⟩
  by_cases h6 : c = Char.ofNat 12
  · subst h6; exact Or.inr ⟨['f'], by simp [escapeChar], fun r => rfl⟩
  by_cases h7 : c = '\r'
  · subst h7; exact Or.inr ⟨['r'], by simp [escapeChar], fun r => rfl⟩
  by_cases h8 : c.toNat < 0x20
  · refine Or.inr ⟨'u' :: hex4 c.toNat, by simp [escapeChar, h1, h2, h3, h4, h5, h6, h7, h8], ?_⟩
    intro r
    simp only [hex4, List.cons_append, List.nil_append]
    simp only [parseEsc, hex4Val_hex4 c.toNat (by omega)]
    rw [if_neg (by omega), if_neg (by omega), Char.ofNat_toNat]
  by_cases h9 : c.toNat < 0x7f
  · exact Or.inl ⟨by simp [escapeChar, h1, h2, h3, h4, h5, h6, h7, h8, h9], h1, h2⟩
  by_cases h10 : c.toNat < 0x10000
  · have hval := char_toNat_valid c
    refine Or.inr ⟨'u' :: hex4 c.toNat, by simp [escapeChar, h1, h2, h3, h4, h5, h6, h7, h8, h9, h10], ?_⟩
    intro r
    simp only [hex4, List.cons_append, List.nil_append]
    simp only [parseEsc, hex4Val_hex4 c.toNat (by omega)]
    rw [if_neg (by omega), if_neg (by omega), Char.ofNat_toNat]
  · have hval := char_toNat_valid c
    have hv : c.toNat - 0x10000 < 0x100000 := by omega
    refine Or.inr ⟨'u' :: (hex4 (0xd800 + (c.toNat - 0x10000) / 0x400) ++
      '\\' :: 'u' :: hex4 (0xdc00 + (c.toNat - 0x10000) % 0x400)),
      by simp [escapeChar, h1, h2, h3, h4, h5, h6, h7, h8, h9, h10], ?_⟩
    intro r
    have hhi : 0xd800 + (c.toNat - 0x10000) / 0x400 < 65536 := by omega
    have hlo : 0xdc00 + (c.toNat - 0x10000) % 0x400 < 65536 := by
      have := Nat.mod_lt (c.toNat - 0x10000) (show 0 < 0x400 by omega)
      omega
    simp only [hex4, List.cons_append, List.nil_append, List.append_assoc]
    simp only [parseEsc, hex4Val_hex4 _ hhi, hex4Val_hex4 _ hlo]
    rw [if_pos (by constructor <;> omega)]
    rw [if_pos ?hlo2]
    case hlo2 =>
      constructor
      · omega
      · have := Nat.mod_lt (c.toNat - 0x10000) (show 0 < 0x400 by omega)
        omega
    have harith : 0x10000 + (0xd800 + (c.toNat - 0x10000) / 0x400 - 0xd800) * 0x400 +
        (0xdc00 + (c.toNat - 0x10000) % 0x400 - 0xdc00) = c.toNat := by
      have h1 := Nat.div_add_mod (c.toNat - 0x10000) 0x400
      omega
    rw [harith, Char.ofNat_toNat]

theorem parseStrGo_other (f : Nat) (acc : List Char) (c : Char) (rest : List Char)
    (hq : c ≠ '"') (hb : c ≠ '\\') :
    parseStrGo (f + 1) (c :: rest) acc = parseStrGo f rest (c :: acc) := by
  rw [parseStrGo]
  · exact fun h => absurd h hq
  · exact fun h => absurd h hb

theorem parseStrGo_render (cs : List Char) : ∀ (fuel : Nat) (acc : List Char) (rest : List Char),
    cs.length < fuel →
    parseStrGo fuel (renderStrChars cs ++ '"' :: rest) acc =
      some (String.mk (acc.reverse ++ cs), rest) := by
  induction cs with
  | nil =>
    intro fuel acc rest hf
    match fuel, hf with
    | f + 1, _ => simp [renderStrChars, parseStrGo]
  | cons c cs ih =>
    intro fuel acc rest hf
    match fuel, hf with
    | f + 1, hf =>
      have hlen : cs.length < f := by
        simp only [List.length_cons] at hf
        omega
      have hrw : renderStrChars (c :: cs) ++ '"' :: rest =
          escapeChar c ++ (renderStrChars cs ++ '"' :: rest) := by
        simp [renderStrChars]
      rw [hrw]
      rcases escape_parse c with ⟨hlit, hq, hbs⟩ | ⟨body, hesc, hparse⟩
      · rw [hlit]
        show parseStrGo (f + 1) (c :: (renderStrChars cs ++ '"' :: rest)) acc = _
        rw [parseStrGo_other f acc c _ hq hbs, ih f (c :: acc) rest hlen]
        simp
      · rw [hesc]
        show parseStrGo (f + 1) ('\\' :: (body ++ (renderStrChars cs ++ '"' :: rest))) acc = _
        rw [show parseStrGo (f + 1) ('\\' :: (body ++ (renderStrChars cs ++ '"' :: rest))) acc =
          match parseEsc (body ++ (renderStrChars cs ++ '"' :: rest)) with
          | some (c2, rest2) => parseStrGo f rest2 (c2 :: acc)
          | none => none from rfl]
        rw [hparse (renderStrChars cs ++ '"' :: rest)]
        show parseStrGo f (renderStrChars cs ++ '"' :: rest) (c :: acc) = _
        rw [ih f (c :: acc) rest hlen]
        simp

theorem wsChar_cases {c : Char} (h : isWsChar c = true) :
    c = ' ' ∨ c = '\t' ∨ c = '\n' ∨ c = '\r' := by
  simp only [isWsChar, Bool.or_eq_true, beq_iff_eq] at h
  tauto

theorem skipWs_append_ws (ws : List Char) (l : List Char) (h : wsOnly ws = true) :
    skipWs (ws ++ l) = skipWs l := by
  induction ws with
  | nil => simp
  | cons c cs ih =>
    rw [wsOnly, List.all_cons, Bool.and_eq_true] at h
    simp only [List.cons_append, skipWs, List.dropWhile_cons, h.1, if_true]
    exact ih h.2

theorem skipWs_cons_not {c : Char} (cs : List Char) (h : isWsChar c = false) :
    skipWs (c :: cs) = c :: cs := by
  simp [skipWs, List.dropWhile_cons, h]

theorem numStop_ws_close {closeWs : List Char} (rest : List Char) (h : wsOnly closeWs = true)
    {c : Char} (hc : c = ']' ∨ c = '}') : numStopB (closeWs ++ c :: rest) = true := by
  cases closeWs with
  | nil =>
    rcases hc with h | h <;> subst h <;> rfl
  | cons w t =>
    rw [wsOnly, List.all_cons, Bool.and_eq_true] at h
    rcases wsChar_cases h.1 with hw | hw | hw | hw <;> subst hw <;> rfl

theorem digit_notX {c : Char} (h : c.isDigit = true) :
    isWsChar c = false ∧ c ≠ ']' ∧ c ≠ '}' ∧ c ≠ 'n' ∧ c ≠ 't' ∧ c ≠ 'f' ∧ c ≠ '"' ∧
      c ≠ '[' ∧ c ≠ '{' := by
  have hne : ∀ d : Char, d.isDigit = false → c ≠ d := by
    intro d hd heq
    rw [heq, hd] at h
    exact Bool.false_ne_true h
  refine ⟨?_, hne _ (by decide), hne _ (by decide), hne _ (by decide), hne _ (by decide),
    hne _ (by decide), hne _ (by decide), hne _ (by decide), hne _ (by decide)⟩
  cases hw : isWsChar c
  · rfl
  · rcases wsChar_cases hw with h' | h' | h' | h' <;> exact absurd h' (hne _ (by decide))

theorem renderDec_head (d : Dec) :
    ∃ c tl, renderDec d = c :: tl ∧ (c = '-' ∨ c.isDigit = true) := by
  unfold renderDec
  by_cases hm : d.mant < 0
  · rw [if_pos hm]
    exact ⟨'-', _, rfl, Or.inl rfl⟩
  · rw [if_neg hm]
    obtain ⟨c, tl, hc, hcd⟩ := renderDecBody_head d.mant.natAbs d.scale
    exact ⟨c, tl, by simp [hc], Or.inr hcd⟩

theorem renderJ_head (lvl : Nat) (v : JValue) :
    ∃ c tl, renderJ lvl v = c :: tl ∧ isWsChar c = false ∧ c ≠ ']' ∧ c ≠ '}' := by
  cases v with
  | null => exact ⟨'n', _, by rw [renderJ], by decide, by decide, by decide⟩
  | bool b =>
    cases b with
    | true => exact ⟨'t', _, by rw [renderJ], by decide, by decide, by decide⟩
    | false => exact ⟨'f', _, by rw [renderJ], by decide, by decide, by decide⟩
  | num d =>
    obtain ⟨c, tl, hc, hcd⟩ := renderDec_head d
    refine ⟨c, tl, by rw [renderJ, hc], ?_, ?_, ?_⟩ <;>
      rcases hcd with h | h
    · subst h; decide
    · exact (digit_notX h).1
    · subst h; decide
    · exact (digit_notX h).2.1
    · subst h; decide
    · exact (digit_notX h).2.2.1
  | str s => exact ⟨'"', _, by rw [renderJ, renderStr], by decide, by decide, by decide⟩
  | arr xs =>
    cases xs with
    | nil => exact ⟨'[', _, by rw [renderJ], by decide, by decide, by decide⟩
    | cons x xs => exact ⟨'[', _, by rw [renderJ], by decide, by decide, by decide⟩
  | obj fs =>
    cases fs with
    | nil => exact ⟨'{', _, by rw [renderJ], by decide, by decide, by decide⟩
    | cons kv kvs =>
      obtain ⟨k, v⟩ := kv
      exact ⟨'{', _, by rw [renderJ], by decide, by decide, by decide⟩

theorem wsOnly_nlIndent (lvl : Nat) : wsOnly (nlIndent lvl) = true := by
  simp only [nlIndent, wsOnly, List.all_cons, Bool.and_eq_true]
  refine ⟨by decide, ?_⟩
  rw [List.all_eq_true]
  intro c hc
  rw [List.eq_of_mem_replicate hc]
  decide

theorem renderJ_length_pos (lvl : Nat) (v : JValue) : 1 ≤ (renderJ lvl v).length := by
  obtain ⟨c, tl, hc, _⟩ := renderJ_head lvl v
  rw [hc]
  simp

theorem escapeChar_length_pos (c : Char) : 1 ≤ (escapeChar c).length := by
  rcases escape_parse c with ⟨h, _, _⟩ | ⟨body, h, _⟩ <;> rw [h] <;> simp

theorem renderStrChars_length_ge (cs : List Char) : cs.length ≤ (renderStrChars cs).length := by
  induction cs with
  | nil => simp [renderStrChars]
  | cons c cs ih =>
    have h1 := escapeChar_length_pos c
    simp only [renderStrChars, List.flatMap_cons, List.length_append, List.length_cons] at ih ⊢
    omega

theorem numStop_items_close (lvl : Nat) (xs : List JValue) (closeWs : List Char)
    (rest : List Char) (hcl : wsOnly closeWs = true) {c : Char} (hc : c = ']' ∨ c = '}') :
    numStopB (renderItems lvl xs ++ (closeWs ++ c :: rest)) = true := by
  cases xs with
  | nil =>
    rw [renderItems]
    simp only [List.nil_append]
    exact numStop_ws_close rest hcl hc
  | cons y ys =>
    rw [renderItems]
    rfl

theorem numStop_members_close (lvl : Nat) (kvs : List (String × JValue)) (closeWs : List Char)
    (rest : List Char) (hcl : wsOnly closeWs = true) {c : Char} (hc : c = ']' ∨ c = '}') :
    numStopB (renderMembers lvl kvs ++ (closeWs ++ c :: rest)) = true := by
  cases kvs with
  | nil =>
    rw [renderMembers]
    simp only [List.nil_append]
    exact numStop_ws_close rest hcl hc
  | cons kv kvs2 =>
    obtain ⟨k2, v2⟩ := kv
    rw [renderMembers]
    rfl

theorem parseItems_step (f : Nat) (cs rest : List Char) (v : JValue) (acc : List JValue)
    (h1 : parseVal f cs = some (v, rest)) :
    parseItems (f + 1) cs acc =
      match skipWs rest with
      | ',' :: rest2 => parseItems f rest2 (acc ++ [v])
      | ']' :: rest2 => some (.arr (acc ++ [v]), rest2)
      | _ => none := by
  rw [parseItems, h1]

theorem parseItems_comma (f : Nat) (cs rest rest2 : List Char) (v : JValue)
    (acc : List JValue) (h1 : parseVal f cs = some (v, rest))
    (h2 : skipWs rest = ',' :: rest2) :
    parseItems (f + 1) cs acc = parseItems f rest2 (acc ++ [v]) := by
  rw [parseItems_step f cs rest v acc h1, h2]
  exact rfl

theorem parseItems_close (f : Nat) (cs rest rest2 : List Char) (v : JValue)
    (acc : List JValue) (h1 : parseVal f cs = some (v, rest))
    (h2 : skipWs rest = ']' :: rest2) :
    parseItems (f + 1) cs acc = some (.arr (acc ++ [v]), rest2) := by
  rw [parseItems_step f cs rest v acc h1, h2]
  exact rfl

theorem parseMembers_step (f : Nat) (cs r rest2 rest3 rest4 : List Char) (k : String)
    (v : JValue) (acc : List (String × JValue))
    (h1 : skipWs cs = '"' :: r) (h2 : parseStrGo f r [] = some (k, rest2))
    (h3 : skipWs rest2 = ':' :: rest3) (h4 : parseVal f rest3 = some (v, rest4)) :
    parseMembers (f + 1) cs acc =
      match skipWs rest4 with
      | ',' :: rest5 => parseMembers f rest5 (acc ++ [(k, v)])
      | '}' :: rest5 => some (.obj (acc ++ [(k, v)]), rest5)
      | _ => none := by
  rw [parseMembers, h1]
  show (match parseStrGo f r [] with
    | none => none
    | some (k, rest2) =>
      match skipWs rest2 with
      | ':' :: rest3 =>
        match parseVal f rest3 with
        | none => none
        | some (v, rest4) =>
          match skipWs rest4 with
          | ',' :: rest5 => parseMembers f rest5 (acc ++ [(k, v)])
          | '}' :: rest5 => some (.obj (acc ++ [(k, v)]), rest5)
          | _ => none
      | _ => none) = _
  rw [h2]
  show (match skipWs rest2 with
    | ':' :: rest3 =>
      match parseVal f rest3 with
      | none => none
      | some (v, rest4) =>
        match skipWs rest4 with
        | ',' :: rest5 => parseMembers f rest5 (acc ++ [(k, v)])
        | '}' :: rest5 => some (.obj (acc ++ [(k, v)]), rest5)
        | _ => none
    | _ => none) = _
  rw [h3]
  show (match parseVal f rest3 with
    | none => none
    | some (v, rest4) =>
      match skipWs rest4 with
      | ',' :: rest5 => parseMembers f rest5 (acc ++ [(k, v)])
      | '}' :: rest5 => some (.obj (acc ++ [(k, v)]), rest5)
      | _ => none) = _
  rw [h4]

theorem parseMembers_comma (f : Nat) (cs r rest2 rest3 rest4 rest5 : List Char)
    (k : String) (v : JValue) (acc : List (String × JValue))
    (h1 : skipWs cs = '"' :: r) (h2 : parseStrGo f r [] = some (k, rest2))
    (h3 : skipWs rest2 = ':' :: rest3) (h4 : parseVal f rest3 = some (v, rest4))
    (h5 : skipWs rest4 = ',' :: rest5) :
    parseMembers (f + 1) cs acc = parseMembers f rest5 (acc ++ [(k, v)]) := by
  rw [parseMembers_step f cs r rest2 rest3 rest4 k v acc h1 h2 h3 h4, h5]
  exact rfl

theorem parseMembers_close (f : Nat) (cs r rest2 rest3 rest4 rest5 : List Char)
    (k : String) (v : JValue) (acc : List (String × JValue))
    (h1 : skipWs cs = '"' :: r) (h2 : parseStrGo f r [] = some (k, rest2))
    (h3 : skipWs rest2 = ':' :: rest3) (h4 : parseVal f rest3 = some (v, rest4))
    (h5 : skipWs rest4 = '}' :: rest5) :
    parseMembers (f + 1) cs acc = some (.obj (acc ++ [(k, v)]), rest5) := by
  rw [parseMembers_step f cs r rest2 rest3 rest4 k v acc h1 h2 h3 h4, h5]
  exact rfl

set_option maxHeartbeats 2000000 in
theorem parse_render_all : ∀ fuel : Nat,
    (∀ (v : JValue) (lvl : Nat) (ws rest : List Char), wsOnly ws = true → numStopB rest = true →
      2 * (ws.length + (renderJ lvl v).length) < fuel →
      parseVal fuel (ws ++ (renderJ lvl v ++ rest)) = some (v, rest)) ∧
    (∀ (x : JValue) (xs : List JValue) (lvl : Nat) (ws closeWs rest : List Char)
      (acc : List JValue), wsOnly ws = true → wsOnly closeWs = true →
      2 * (ws.length + (renderJ lvl x).length + (renderItems lvl xs).length +
        closeWs.length + 1) < fuel →
      parseItems fuel (ws ++ (renderJ lvl x ++ (renderItems lvl xs ++ (closeWs ++ ']' :: rest))))
        acc = some (.arr (acc ++ x :: xs), rest)) ∧
    (∀ (k : String) (v : JValue) (kvs : List (String × JValue)) (lvl : Nat)
      (ws closeWs rest : List Char) (acc : List (String × JValue)),
      wsOnly ws = true → wsOnly closeWs = true →
      2 * (ws.length + (renderStr k).length + 2 + (renderJ lvl v).length +
        (renderMembers lvl kvs).length + closeWs.length + 1) < fuel →
      parseMembers fuel (ws ++ (renderStr k ++ (':' :: ' ' :: (renderJ lvl v ++
        (renderMembers lvl kvs ++ (closeWs ++ '}' :: rest)))))) acc =
        some (.obj (acc ++ (k, v) :: kvs), rest)) := by
  intro fuel
  induction fuel using Nat.strong_induction_on with
  | _ fuel IH =>
  refine ⟨?_, ?_, ?_⟩
  · -- Part A: values
    intro v lvl ws rest hws hrest hbud
    match fuel, hbud with
    | f + 1, hbud =>
    cases v with
    | null =>
      have hr : renderJ lvl JValue.null = ['n', 'u', 'l', 'l'] := by rw [renderJ]
      rw [hr, parseVal]
      rw [show (['n', 'u', 'l', 'l'] : List Char) ++ rest = 'n' :: ('u' :: 'l' :: 'l' :: rest)
        from rfl]
      rw [skipWs_append_ws _ _ hws, skipWs_cons_not _ (by decide)]
      simp
    | bool b =>
      cases b with
      | true =>
        have hr : renderJ lvl (JValue.bool true) = ['t', 'r', 'u', 'e'] := by rw [renderJ]
        rw [hr, parseVal]
        rw [show (['t', 'r', 'u', 'e'] : List Char) ++ rest = 't' :: ('r' :: 'u' :: 'e' :: rest)
          from rfl]
        rw [skipWs_append_ws _ _ hws, skipWs_cons_not _ (by decide)]
        simp
      | false =>
        have hr : renderJ lvl (JValue.bool false) = ['f', 'a', 'l', 's', 'e'] := by rw [renderJ]
        rw [hr, parseVal]
        rw [show (['f', 'a', 'l', 's', 'e'] : List Char) ++ rest =
          'f' :: ('a' :: 'l' :: 's' :: 'e' :: rest) from rfl]
        rw [skipWs_append_ws _ _ hws, skipWs_cons_not _ (by decide)]
        simp
    | num d =>
      obtain ⟨c, tl, hc, hcd⟩ := renderDec_head d
      have hfacts : isWsChar c = false ∧ c ≠ 'n' ∧ c ≠ 't' ∧ c ≠ 'f' ∧ c ≠ '"' ∧
          c ≠ '[' ∧ c ≠ '{' := by
        rcases hcd with h | h
        · subst h; refine ⟨by decide, by decide, by decide, by decide, by decide, by decide,
            by decide⟩
        · obtain ⟨h1, _, _, h4, h5, h6, h7, h8, h9⟩ := digit_notX h
          exact ⟨h1, h4, h5, h6, h7, h8, h9⟩
      obtain ⟨hcw, hn, ht, hf2, hq, hbr, hbc⟩ := hfacts
      have hrj : renderJ lvl (JValue.num d) = renderDec d := by rw [renderJ]
      rw [hrj, parseVal, hc]
      rw [show (c :: tl) ++ rest = c :: (tl ++ rest) from rfl]
      rw [skipWs_append_ws _ _ hws, skipWs_cons_not _ hcw]
      simp only [if_neg hn, if_neg ht, if_neg hf2, if_neg hq, if_neg hbr, if_neg hbc]
      rw [show c :: (tl ++ rest) = renderDec d ++ rest by rw [hc]; rfl]
      rw [parseNum_render d rest hrest]
    | str s =>
      have hrj : renderJ lvl (JValue.str s) = renderStr s := by rw [renderJ]
      rw [hrj, parseVal, renderStr]
      rw [show ('"' :: (renderStrChars s.toList ++ ['"'])) ++ rest =
        '"' :: (renderStrChars s.toList ++ ('"' :: rest)) by simp]
      rw [skipWs_append_ws _ _ hws, skipWs_cons_not _ (by decide)]
      have hlen : s.toList.length < f := by
        have h1 := renderStrChars_length_ge s.toList
        have h2 : (renderJ lvl (JValue.str s)).length =
            (renderStrChars s.toList).length + 2 := by
          rw [hrj, renderStr]
          simp
        omega
      simp only [if_pos rfl]
      rw [parseStrGo_render s.toList f [] rest hlen]
      simp
    | arr xs =>
      cases xs with
      | nil =>
        have hrj : renderJ lvl (JValue.arr []) = ['[', ']'] := by rw [renderJ]
        rw [hrj, parseVal]
        rw [show (['[', ']'] : List Char) ++ rest = '[' :: (']' :: rest) from rfl]
        rw [skipWs_append_ws _ _ hws, skipWs_cons_not _ (by decide)]
        simp only [if_neg (by decide : ¬('[' : Char) = 'n'),
          if_neg (by decide : ¬('[' : Char) = 't'), if_neg (by decide : ¬('[' : Char) = 'f'),
          if_neg (by decide : ¬('[' : Char) = '"'), eq_self_iff_true, if_true]
        rw [skipWs_cons_not _ (by decide)]
        rfl
      | cons x xs =>
        have hrj : renderJ lvl (JValue.arr (x :: xs)) =
            '[' :: (nlIndent (lvl + 1) ++ renderJ (lvl + 1) x ++ renderItems (lvl + 1) xs ++
              nlIndent lvl ++ [']']) := by rw [renderJ]
        rw [hrj, parseVal]
        rw [show ('[' :: (nlIndent (lvl + 1) ++ renderJ (lvl + 1) x ++
            renderItems (lvl + 1) xs ++ nlIndent lvl ++ [']'])) ++ rest =
          '[' :: (nlIndent (lvl + 1) ++ (renderJ (lvl + 1) x ++ (renderItems (lvl + 1) xs ++
            (nlIndent lvl ++ (']' :: rest))))) by simp]
        rw [skipWs_append_ws _ _ hws, skipWs_cons_not _ (by decide)]
        simp only [if_neg (by decide : ¬('[' : Char) = 'n'),
          if_neg (by decide : ¬('[' : Char) = 't'), if_neg (by decide : ¬('[' : Char) = 'f'),
          if_neg (by decide : ¬('[' : Char) = '"'), eq_self_iff_true, if_true]
        obtain ⟨c, tl, hchd, hcw, hcnb, hcnc⟩ := renderJ_head (lvl + 1) x
        rw [show skipWs (nlIndent (lvl + 1) ++ (renderJ (lvl + 1) x ++
            (renderItems (lvl + 1) xs ++ (nlIndent lvl ++ (']' :: rest))))) =
          c :: (tl ++ (renderItems (lvl + 1) xs ++ (nlIndent lvl ++ (']' :: rest)))) by
          rw [skipWs_append_ws _ _ (wsOnly_nlIndent _), hchd]
          rw [show (c :: tl) ++ (renderItems (lvl + 1) xs ++ (nlIndent lvl ++ (']' :: rest))) =
            c :: (tl ++ (renderItems (lvl + 1) xs ++ (nlIndent lvl ++ (']' :: rest)))) from rfl]
          exact skipWs_cons_not _ hcw]
        split
        · rename_i heq
          injection heq with h1 h2
          exact absurd h1 hcnb
        · have hlen : (renderJ lvl (JValue.arr (x :: xs))).length =
              2 + (nlIndent (lvl + 1)).length + (renderJ (lvl + 1) x).length +
                (renderItems (lvl + 1) xs).length + (nlIndent lvl).length := by
            rw [hrj]
            simp
            omega
          have hb2 : 2 * ((nlIndent (lvl + 1)).length + (renderJ (lvl + 1) x).length +
              (renderItems (lvl + 1) xs).length + (nlIndent lvl).length + 1) < f := by
            omega
          have := ((IH f (by omega)).2.1) x xs (lvl + 1) (nlIndent (lvl + 1)) (nlIndent lvl)
            rest [] (wsOnly_nlIndent _) (wsOnly_nlIndent _) hb2
          simpa using this
    | obj fs =>
      cases fs with
      | nil =>
        have hrj : renderJ lvl (JValue.obj []) = ['{', '}'] := by rw [renderJ]
        rw [hrj, parseVal]
        rw [show (['{', '}'] : List Char) ++ rest = '{' :: ('}' :: rest) from rfl]
        rw [skipWs_append_ws _ _ hws, skipWs_cons_not _ (by decide)]
        simp only [if_neg (by decide : ¬('{' : Char) = 'n'),
          if_neg (by decide : ¬('{' : Char) = 't'), if_neg (by decide : ¬('{' : Char) = 'f'),
          if_neg (by decide : ¬('{' : Char) = '"'), if_neg (by decide : ¬('{' : Char) = '['),
          eq_self_iff_true, if_true]
        rw [skipWs_cons_not _ (by decide)]
        rfl
      | cons kv kvs =>
        obtain ⟨k, v⟩ := kv
        have hrj : renderJ lvl (JValue.obj ((k, v) :: kvs)) =
            '{' :: (nlIndent (lvl + 1) ++ renderStr k ++ ':' :: ' ' :: renderJ (lvl + 1) v ++
              renderMembers (lvl + 1) kvs ++ nlIndent lvl ++ ['}']) := by rw [renderJ]
        rw [hrj, parseVal]
        rw [show ('{' :: (nlIndent (lvl + 1) ++ renderStr k ++ ':' :: ' ' ::
            renderJ (lvl + 1) v ++ renderMembers (lvl + 1) kvs ++ nlIndent lvl ++ ['}'])) ++
            rest =
          '{' :: (nlIndent (lvl + 1) ++ (renderStr k ++ (':' :: ' ' :: (renderJ (lvl + 1) v ++
            (renderMembers (lvl + 1) kvs ++ (nlIndent lvl ++ ('}' :: rest))))))) by simp]
        rw [skipWs_append_ws _ _ hws, skipWs_cons_not _ (by decide)]
        simp only [if_neg (by decide : ¬('{' : Char) = 'n'),
          if_neg (by decide : ¬('{' : Char) = 't'), if_neg (by decide : ¬('{' : Char) = 'f'),
          if_neg (by decide : ¬('{' : Char) = '"'), if_neg (by decide : ¬('{' : Char) = '['),
          eq_self_iff_true, if_true]
        rw [show skipWs (nlIndent (lvl + 1) ++ (renderStr k ++ (':' :: ' ' ::
            (renderJ (lvl + 1) v ++ (renderMembers (lvl + 1) kvs ++
              (nlIndent lvl ++ ('}' :: rest))))))) =
          '"' :: ((renderStrChars k.toList ++ ['"']) ++ (':' :: ' ' ::
            (renderJ (lvl + 1) v ++ (renderMembers (lvl + 1) kvs ++
              (nlIndent lvl ++ ('}' :: rest)))))) by
          rw [skipWs_append_ws _ _ (wsOnly_nlIndent _), renderStr]
          rw [show ('"' :: (renderStrChars k.toList ++ ['"'])) ++ (':' :: ' ' ::
              (renderJ (lvl + 1) v ++ (renderMembers (lvl + 1) kvs ++
                (nlIndent lvl ++ ('}' :: rest))))) =
            '"' :: ((renderStrChars k.toList ++ ['"']) ++ (':' :: ' ' ::
              (renderJ (lvl + 1) v ++ (renderMembers (lvl + 1) kvs ++
                (nlIndent lvl ++ ('}' :: rest)))))) from rfl]
          exact skipWs_cons_not _ (by decide)]
        split
        · rename_i heq
          injection heq with h1 h2
          exact absurd h1 (by decide)
        · have hlen : (renderJ lvl (JValue.obj ((k, v) :: kvs))).length =
              2 + (nlIndent (lvl + 1)).length + (renderStr k).length + 2 +
                (renderJ (lvl + 1) v).length + (renderMembers (lvl + 1) kvs).length +
                (nlIndent lvl).length := by
            rw [hrj]
            simp
            omega
          have hb2 : 2 * ((nlIndent (lvl + 1)).length + (renderStr k).length + 2 +
              (renderJ (lvl + 1) v).length + (renderMembers (lvl + 1) kvs).length +
              (nlIndent lvl).length + 1) < f := by
            omega
          have := ((IH f (by omega)).2.2) k v kvs (lvl + 1) (nlIndent (lvl + 1)) (nlIndent lvl)
            rest [] (wsOnly_nlIndent _) (wsOnly_nlIndent _) hb2
          simpa using this
  · -- Part B: array items
    intro x xs lvl ws closeWs rest acc hws hcl hbud
    match fuel, hbud with
    | f + 1, hbud =>
    have hstop : numStopB (renderItems lvl xs ++ (closeWs ++ ']' :: rest)) = true :=
      numStop_items_close lvl xs closeWs rest hcl (Or.inl rfl)
    have hb1 : 2 * (ws.length + (renderJ lvl x).length) < f := by omega
    have h1 := (IH f (by omega)).1 x lvl ws (renderItems lvl xs ++ (closeWs ++ ']' :: rest))
      hws hstop hb1
    cases xs with
    | nil =>
      have hri : renderItems lvl ([] : List JValue) = [] := by rw [renderItems]
      rw [hri] at h1 hstop ⊢
      simp only [List.nil_append] at h1 ⊢
      have h2 : skipWs (closeWs ++ ']' :: rest) = ']' :: rest := by
        rw [skipWs_append_ws _ _ hcl, skipWs_cons_not _ (by decide)]
      rw [parseItems_close f _ _ rest x acc h1 h2]
    | cons y ys =>
      have hri : renderItems lvl (y :: ys) =
          ',' :: (nlIndent lvl ++ renderJ lvl y ++ renderItems lvl ys) := by rw [renderItems]
      have h2 : skipWs (renderItems lvl (y :: ys) ++ (closeWs ++ ']' :: rest)) =
          ',' :: (nlIndent lvl ++ (renderJ lvl y ++ (renderItems lvl ys ++
            (closeWs ++ ']' :: rest)))) := by
        rw [hri]
        rw [show (',' :: (nlIndent lvl ++ renderJ lvl y ++ renderItems lvl ys)) ++
            (closeWs ++ ']' :: rest) =
          ',' :: (nlIndent lvl ++ (renderJ lvl y ++ (renderItems lvl ys ++
            (closeWs ++ ']' :: rest)))) by simp]
        exact skipWs_cons_not _ (by decide)
      rw [parseItems_comma f _ _ _ x acc h1 h2]
      have hlen : (renderItems lvl (y :: ys)).length =
          1 + (nlIndent lvl).length + (renderJ lvl y).length +
            (renderItems lvl ys).length := by
        rw [hri]
        simp
        omega
      have hb2 : 2 * ((nlIndent lvl).length + (renderJ lvl y).length +
          (renderItems lvl ys).length + closeWs.length + 1) < f := by omega
      have h3 := (IH f (by omega)).2.1 y ys lvl (nlIndent lvl) closeWs rest (acc ++ [x])
        (wsOnly_nlIndent _) hcl hb2
      rw [h3]
      simp
  · -- Part C: object members
    intro k v kvs lvl ws closeWs rest acc hws hcl hbud
    match fuel, hbud with
    | f + 1, hbud =>
    have h1 : skipWs (ws ++ (renderStr k ++ (':' :: ' ' :: (renderJ lvl v ++
        (renderMembers lvl kvs ++ (closeWs ++ '}' :: rest)))))) =
      '"' :: (renderStrChars k.toList ++ ('"' :: (':' :: ' ' :: (renderJ lvl v ++
        (renderMembers lvl kvs ++ (closeWs ++ '}' :: rest)))))) := by
      rw [show ws ++ (renderStr k ++ (':' :: ' ' :: (renderJ lvl v ++
          (renderMembers lvl kvs ++ (closeWs ++ '}' :: rest))))) =
        ws ++ ('"' :: (renderStrChars k.toList ++ ('"' :: (':' :: ' ' :: (renderJ lvl v ++
          (renderMembers lvl kvs ++ (closeWs ++ '}' :: rest))))))) by rw [renderStr]; simp]
      rw [skipWs_append_ws _ _ hws]
      exact skipWs_cons_not _ (by decide)
    have hklen : k.toList.length < f := by
      have ha := renderStrChars_length_ge k.toList
      have hb : (renderStr k).length = (renderStrChars k.toList).length + 2 := by
        rw [renderStr]
        simp
      omega
    have h2 : parseStrGo f (renderStrChars k.toList ++ ('"' :: (':' :: ' ' ::
        (renderJ lvl v ++ (renderMembers lvl kvs ++ (closeWs ++ '}' :: rest)))))) [] =
      some (k, ':' :: ' ' :: (renderJ lvl v ++
        (renderMembers lvl kvs ++ (closeWs ++ '}' :: rest)))) := by
      rw [parseStrGo_render k.toList f [] _ hklen]
      rfl
    have h3 : skipWs (':' :: ' ' :: (renderJ lvl v ++
        (renderMembers lvl kvs ++ (closeWs ++ '}' :: rest)))) =
      ':' :: (' ' :: (renderJ lvl v ++
        (renderMembers lvl kvs ++ (closeWs ++ '}' :: rest)))) :=
      skipWs_cons_not _ (by decide)
    have hstop : numStopB (renderMembers lvl kvs ++ (closeWs ++ '}' :: rest)) = true :=
      numStop_members_close lvl kvs closeWs rest hcl (Or.inr rfl)
    have hb1 : 2 * ((1 : Nat) + (renderJ lvl v).length) < f := by omega
    have h4 : parseVal f (' ' :: (renderJ lvl v ++
        (renderMembers lvl kvs ++ (closeWs ++ '}' :: rest)))) =
      some (v, renderMembers lvl kvs ++ (closeWs ++ '}' :: rest)) :=
      (IH f (by omega)).1 v lvl [' ']
        (renderMembers lvl kvs ++ (closeWs ++ '}' :: rest)) (by decide) hstop hb1
    cases kvs with
    | nil =>
      have hrm : renderMembers lvl ([] : List (String × JValue)) = [] := by
        rw [renderMembers]
      have h5 : skipWs (renderMembers lvl ([] : List (String × JValue)) ++
          (closeWs ++ '}' :: rest)) = '}' :: rest := by
        rw [hrm]
        simp only [List.nil_append]
        rw [skipWs_append_ws _ _ hcl]
        exact skipWs_cons_not _ (by decide)
      rw [parseMembers_close f _ _ _ _ _ rest k v acc h1 h2 h3 h4 h5]
    | cons kv2 kvs2 =>
      obtain ⟨k2, v2⟩ := kv2
      have hrm : renderMembers lvl ((k2, v2) :: kvs2) =
          ',' :: (nlIndent lvl ++ renderStr k2 ++ ':' :: ' ' :: renderJ lvl v2 ++
            renderMembers lvl kvs2) := by rw [renderMembers]
      have h5 : skipWs (renderMembers lvl ((k2, v2) :: kvs2) ++ (closeWs ++ '}' :: rest)) =
          ',' :: (nlIndent lvl ++ (renderStr k2 ++ (':' :: ' ' :: (renderJ lvl v2 ++
            (renderMembers lvl kvs2 ++ (closeWs ++ '}' :: rest)))))) := by
        rw [hrm]
        rw [show (',' :: (nlIndent lvl ++ renderStr k2 ++ ':' :: ' ' :: renderJ lvl v2 ++
            renderMembers lvl kvs2)) ++ (closeWs ++ '}' :: rest) =
          ',' :: (nlIndent lvl ++ (renderStr k2 ++ (':' :: ' ' :: (renderJ lvl v2 ++
            (renderMembers lvl kvs2 ++ (closeWs ++ '}' :: rest)))))) by simp]
        exact skipWs_cons_not _ (by decide)
      rw [parseMembers_comma f _ _ _ _ _ _ k v acc h1 h2 h3 h4 h5]
      have hlen : (renderMembers lvl ((k2, v2) :: kvs2)).length =
          1 + (nlIndent lvl).length + (renderStr k2).length + 2 +
            (renderJ lvl v2).length + (renderMembers lvl kvs2).length := by
        rw [hrm]
        simp
        omega
      have hb2 : 2 * ((nlIndent lvl).length + (renderStr k2).length + 2 +
          (renderJ lvl v2).length + (renderMembers lvl kvs2).length + closeWs.length + 1) <
          f := by omega
      have h6 := (IH f (by omega)).2.2 k2 v2 kvs2 lvl (nlIndent lvl) closeWs rest
        (acc ++ [(k, v)]) (wsOnly_nlIndent _) hcl hb2
      rw [h6]
      simp

theorem parseJson_renderJson (v : JValue) : parseJson (renderJson v) = some v := by
  have hA := (parse_render_all (2 * (renderJ 0 v).length + 2)).1 v 0 [] [] rfl rfl
    (by simp only [List.length_nil]; omega)
  simp only [List.nil_append, List.append_nil] at hA
  rw [parseJson]
  rw [show (renderJson v).toList = renderJ 0 v from rfl]
  rw [show (renderJson v).length = (renderJ 0 v).length from rfl]
  rw [hA]
  exact rfl

theorem jsonField_toJson_params (r : SearchResult) :
    jsonField (toJson r) "search_params" = some (paramsJ r.search_params) := rfl

theorem jsonField_toJson_urls (r : SearchResult) :
    jsonField (toJson r) "urls" = some (urlsJ r.urls) := rfl

theorem jsonField_toJson_points (r : SearchResult) :
    jsonField (toJson r) "points_urls" = some (urlsJ r.points_urls) := rfl

/-- C9: formatting a result sequence as JSON and parsing the string back
yields the array of the results' JSON objects, whose search_params, urls
and points_urls fields project back exactly to the input results' search
parameters and URL mappings. -/
theorem C9_json_roundtrip (results : List SearchResult) :
    ∃ s : String, format_results results "json" = Except.ok s ∧
      parseJson s = some (.arr (results.map toJson)) ∧
      (results.map toJson).map (fun v => jsonField v "search_params") =
        results.map (fun r => some (paramsJ r.search_params)) ∧
      (results.map toJson).map (fun v => jsonField v "urls") =
        results.map (fun r => some (urlsJ r.urls)) ∧
      (results.map toJson).map (fun v => jsonField v "points_urls") =
        results.map (fun r => some (urlsJ r.points_urls)) := by
  refine ⟨renderJson (.arr (results.map toJson)), rfl,
    parseJson_renderJson (.arr (results.map toJson)), ?_, ?_, ?_⟩
  · rw [List.map_map]
    exact List.map_congr_left (fun r _ => jsonField_toJson_params r)
  · rw [List.map_map]
    exact List.map_congr_left (fun r _ => jsonField_toJson_urls r)
  · rw [List.map_map]
    exact List.map_congr_left (fun r _ => jsonField_toJson_points r)
